import Mathlib

/-!
Verification of the family-tree relationship-graph core of
`thayagapriyan/family-tree` (`src/app/tree.tsx`): the import sanitizer
(`normalizeImportedFamily`), the reciprocal-type table (`reciprocal`),
the pairwise relation insert (`addRelationPair`) and the relation mutator
(`saveQuickRelation`).  The TypeScript source is shallowly embedded:
members are records with a list of typed relations, decoded JSON is an
inductive value, the in-place array mutation of the source becomes
explicit list rewriting, and the nondeterministic fresh-id generator
(`Date.now()`-based) becomes an explicit `freshId` parameter.
-/

namespace FamilyTree

/-- A directed relation edge: `{ type: string, targetId: string }`. -/
structure Relation where
  type : String
  targetId : String
  deriving DecidableEq, Repr

/-- A member record as used by the tree screen
(`{ id, name, dob?, email?, photo?, relations }`). -/
structure Member where
  id : String
  name : String
  dob : Option String
  email : Option String
  photo : Option String
  relations : List Relation
  deriving DecidableEq, Repr

/-- Decoded JSON values, the input domain of `normalizeImportedFamily`. -/
inductive Json where
  | null : Json
  | bool (b : Bool) : Json
  | num (n : Int) : Json
  | str (s : String) : Json
  | arr (elems : List Json) : Json
  | obj (fields : List (String × Json)) : Json

/-- Property access `value[key]` on a decoded JSON value: `undefined`
(here `none`) unless the value is an object with that key. -/
def Json.get : Json → String → Option Json
  | .obj fs, k => (fs.find? (fun kv => kv.1 == k)).map (fun kv => kv.2)
  | _, _ => none

/-- `typeof v === 'string' ? v : undefined` for a property lookup. -/
def Json.getStr (j : Json) (k : String) : Option String :=
  match j.get k with
  | some (.str s) => some s
  | _ => none

/-- `v && typeof v === 'object'` (JS arrays also satisfy this test). -/
def Json.isObjLike : Json → Bool
  | .obj _ => true
  | .arr _ => true
  | _ => false

/-- The value is a JSON object proper (used by the spec-side description
of the per-item pass). -/
def Json.isObj : Json → Bool
  | .obj _ => true
  | _ => false

/-- JavaScript `String.prototype.trim()`: strip whitespace from both
ends.  Implemented by structural recursion over the character list so
that concrete instances reduce inside the kernel. -/
def jsTrim (s : String) : String :=
  String.mk (((s.data.dropWhile Char.isWhitespace).reverse.dropWhile Char.isWhitespace).reverse)

/-- The per-relation map step of the sanitizer:
`{ type: typeof r.type === 'string' ? r.type : 'other',
   targetId: typeof r.targetId === 'string' ? r.targetId : '' }`. -/
def mapRelation (r : Json) : Relation :=
  { type := match r.getStr "type" with
            | some s => s
            | none => "other",
    targetId := match r.getStr "targetId" with
                | some s => s
                | none => "" }

/-- The relation list built for one imported item: keep object-like
entries, map them, then drop blank targets and self-targets
(`.filter(r => r.targetId && r.targetId !== id)`). -/
def sanitizeRelations (item : Json) (id : String) : List Relation :=
  match item.get "relations" with
  | some (.arr rs) =>
      ((rs.filter Json.isObjLike).map mapRelation).filter
        (fun r => !(r.targetId == "") && !(r.targetId == id))
  | _ => []

/-- The member pushed for a kept item (`id` raw, `name` trimmed,
string-only optional fields). -/
def buildMember (item : Json) : Member :=
  { id := (item.getStr "id").getD "",
    name := jsTrim ((item.getStr "name").getD ""),
    dob := item.getStr "dob",
    email := item.getStr "email",
    photo := item.getStr "photo",
    relations := sanitizeRelations item ((item.getStr "id").getD "") }

/-- The per-item loop of `normalizeImportedFamily`: drop items without a
non-blank string `id` and `name` (the `!item || typeof item !== 'object'`
guard is subsumed: property lookups on non-objects yield `undefined`),
drop duplicates of an already `seen` id, and build members in order. -/
def sanitizeItems : List Json → List String → List Member
  | [], _ => []
  | item :: rest, seen =>
    match item.getStr "id" with
    | none => sanitizeItems rest seen
    | some id =>
      if jsTrim id == "" then sanitizeItems rest seen
      else
        match item.getStr "name" with
        | none => sanitizeItems rest seen
        | some name =>
          if jsTrim name == "" then sanitizeItems rest seen
          else if seen.contains id then sanitizeItems rest seen
          else buildMember item :: sanitizeItems rest (id :: seen)

/-- The top-level shape sniffing
`Array.isArray(data) ? data : (data && typeof data === 'object' &&
Array.isArray(data.members)) ? data.members : []`.
Every branch of the ternary produces an array. -/
def rawListOf (data : Json) : Json :=
  match data with
  | .arr _ => data
  | _ =>
    match data.get "members" with
    | some (.arr xs) => .arr xs
    | _ => .arr []

/-- `normalizeImportedFamily(data)`.  `none` models the `null` return of
the `if (!Array.isArray(rawList)) return null;` guard; `some` models a
returned member array.  After the per-item pass, an empty result is
returned as-is, otherwise a second pass prunes relations whose target id
is not in the surviving id set. -/
def normalizeImportedFamily (data : Json) : Option (List Member) :=
  match rawListOf data with
  | .arr items =>
    let sanitized := sanitizeItems items []
    if sanitized.length == 0 then some []
    else
      let idSet := sanitized.map Member.id
      some (sanitized.map fun m =>
        { m with relations := m.relations.filter fun r => idSet.contains r.targetId })
  | _ => none

/-- The `reciprocal` switch table. -/
def reciprocal (t : String) : String :=
  if t == "parent" then "child"
  else if t == "child" then "parent"
  else if t == "spouse" then t
  else if t == "partner" then t
  else if t == "sibling" then t
  else "other"

/-- `m.relations.find(r => r.targetId === tid && r.type === t)` is hit. -/
def hasRel (m : Member) (t tid : String) : Bool :=
  m.relations.any fun r => r.targetId == tid && r.type == t

/-- One guarded push of `addRelationPair`: append `{t, tid}` to the
member's relations only if that exact pair is absent. -/
def pushIfAbsent (t tid : String) (m : Member) : Member :=
  if hasRel m t tid then m
  else { m with relations := m.relations ++ [{ type := t, targetId := tid }] }

/-- Rewrite the first member whose id is `tid` (the object
`list.find(m => m.id === tid)` aliases into the list). -/
def updateFirst : List Member → String → (Member → Member) → List Member
  | [], _, _ => []
  | m :: rest, tid, f =>
    if m.id == tid then f m :: rest
    else m :: updateFirst rest tid f

/-- `addRelationPair(id1, id2, type1to2)`: a no-op unless both ids
resolve; otherwise push `{type1to2, id2}` onto the first `id1` member and
then `{reciprocal type1to2, id1}` onto the first `id2` member, each only
if absent.  The second lookup happens after the first push (in the
source, both pushes mutate shared member objects in place). -/
def addRelationPair (list : List Member) (id1 id2 : String) (type1to2 : String) : List Member :=
  match list.find? (fun m => m.id == id1), list.find? (fun m => m.id == id2) with
  | some _, some _ =>
      updateFirst (updateFirst list id1 (pushIfAbsent type1to2 id2)) id2
        (pushIfAbsent (reciprocal type1to2) id1)
  | _, _ => list

/-- The relation type of a quick-relation edit
(`type: 'child' | 'spouse' | 'sibling'`). -/
inductive QType where
  | child : QType
  | spouse : QType
  | sibling : QType
  deriving DecidableEq, Repr

def QType.str : QType → String
  | .child => "child"
  | .spouse => "spouse"
  | .sibling => "sibling"

/-- Validation failures of `saveQuickRelation` (each surfaces as an
`Alert` and returns before the new list is committed). -/
inductive VErr where
  | emptyName : VErr
  | noTarget : VErr
  | selfRelation : VErr
  deriving DecidableEq, Repr

/-- Is `r.type === 'spouse' || r.type === 'partner'`. -/
def spousePred (r : Relation) : Bool :=
  r.type == "spouse" || r.type == "partner"

def newMember (id name : String) : Member :=
  { id := id, name := name, dob := none, email := none, photo := none, relations := [] }

/-- The graph-model read view `relationsOf(id)`: relations of the first
member with the given id, empty if none (`list.find(m => m.id === id)`
followed by an optional-chained `.relations`). -/
def relationsOfId (l : List Member) (id : String) : List Relation :=
  match l.find? (fun m => m.id == id) with
  | some m => m.relations
  | none => []

/-- The list the edit works on: in new-target mode a fresh member with
the trimmed name is pushed (`list.push({id: finalTargetId, name, relations: []})`). -/
def resolvedList (members : List Member) (useNewTarget : Bool)
    (newTargetName freshId : String) : List Member :=
  if useNewTarget then members ++ [newMember freshId (jsTrim newTargetName)] else members

/-- `finalTargetId`: the freshly generated id in new-target mode, the
picked id otherwise. -/
def resolvedTargetId (useNewTarget : Bool) (freshId : String)
    (targetId : Option String) : Option String :=
  if useNewTarget then some freshId else targetId

/-- The graph-model read view `relationsOf(id)` restricted to `child`
entries, as snapshotted by the spouse-edit propagation
(`sourceMember?.relations?.filter(r => r.type === 'child') || []`). -/
def childrenOf (l : List Member) (sourceId : String) : List Relation :=
  (relationsOfId l sourceId).filter fun r => r.type == "child"

/-- The joint-parenting propagation of `saveQuickRelation`, run after the
main pair insert: a child edit links the target of the source's first
spouse-or-partner relation to the child; a spouse edit links every child
of the source to the new spouse; a sibling edit propagates nothing. -/
def propagate (l1 : List Member) (sourceId ft : String) : QType → List Member
  | .child =>
    match (relationsOfId l1 sourceId).find? spousePred with
    | some r => addRelationPair l1 (Relation.targetId r) ft "child"
    | none => l1
  | .spouse =>
    (childrenOf l1 sourceId).foldl
      (fun acc c => addRelationPair acc ft (Relation.targetId c) "child") l1
  | .sibling => l1

/-- `saveQuickRelation`: validate, resolve the target (a fresh member in
new-target mode), insert the reciprocal pair, then run the
joint-parenting propagation.  Errors return before anything is
committed; success returns the rebuilt list. -/
def saveQuickRelation (members : List Member) (sourceId : String) (qt : QType)
    (useNewTarget : Bool) (newTargetName : String) (targetId : Option String)
    (freshId : String) : Except VErr (List Member) :=
  if useNewTarget && jsTrim newTargetName == "" then .error .emptyName
  else
    match resolvedTargetId useNewTarget freshId targetId with
    | none => .error .noTarget
    | some ft =>
      if ft == "" then .error .noTarget
      else if ft == sourceId then .error .selfRelation
      else
        .ok (propagate
          (addRelationPair (resolvedList members useNewTarget newTargetName freshId)
            sourceId ft qt.str)
          sourceId ft qt)

/-- The state actually committed by the screen: `setMembers(list)` runs
only on the success path; every validation failure leaves the previous
`members` state in place. -/
def commitQuickRelation (members : List Member) (sourceId : String) (qt : QType)
    (useNewTarget : Bool) (newTargetName : String) (targetId : Option String)
    (freshId : String) : List Member :=
  match saveQuickRelation members sourceId qt useNewTarget newTargetName targetId freshId with
  | .ok l => l
  | .error _ => members

/-- The member with a given id (first occurrence) holds relation
`(t, tid)`. -/
def hasRelId (l : List Member) (id t tid : String) : Bool :=
  match l.find? (fun m => m.id == id) with
  | some m => hasRel m t tid
  | none => false

/-- Some member holds a relation targeting its own id. -/
def hasSelfRelation (l : List Member) : Bool :=
  l.any fun m => m.relations.any fun r => r.targetId == m.id

/-- Every relation held by any member has a reciprocal entry on (the
first occurrence of) the targeted member. -/
def reciprocityHolds (l : List Member) : Bool :=
  l.all fun a => a.relations.all fun r =>
    l.any fun b => b.id == r.targetId && hasRel b (reciprocal r.type) a.id

/-- Two relation entries do not form the same `(type, targetId)` pair. -/
def distinctPair (r s : Relation) : Prop :=
  ¬(r.type = s.type ∧ r.targetId = s.targetId)

instance : DecidableRel distinctPair := fun r s => by
  unfold distinctPair; infer_instance

/-- No member's relation list contains two entries with the same
`(type, targetId)` pair. -/
def noDupPairs (l : List Member) : Prop :=
  ∀ m ∈ l, m.relations.Pairwise distinctPair

instance (l : List Member) : Decidable (noDupPairs l) := by
  unfold noDupPairs; infer_instance

/-! ### Basic lemmas about `pushIfAbsent` -/

@[simp] lemma pushIfAbsent_id (t tid : String) (m : Member) :
    (pushIfAbsent t tid m).id = m.id := by
  unfold pushIfAbsent; split <;> rfl

lemma relations_pushIfAbsent (t tid : String) (m : Member) :
    (pushIfAbsent t tid m).relations = m.relations ∨
      ((pushIfAbsent t tid m).relations = m.relations ++ [⟨t, tid⟩] ∧
        hasRel m t tid = false) := by
  unfold pushIfAbsent
  by_cases h : hasRel m t tid
  · simp [h]
  · simp [h]

lemma pushIfAbsent_eq_self {t tid : String} {m : Member}
    (h : hasRel m t tid = true) : pushIfAbsent t tid m = m := by
  unfold pushIfAbsent; simp [h]

lemma hasRel_pushIfAbsent_self (t tid : String) (m : Member) :
    hasRel (pushIfAbsent t tid m) t tid = true := by
  unfold pushIfAbsent
  by_cases h : hasRel m t tid
  · simp [h]
  · simp only [h, if_neg, Bool.false_eq_true, not_false_eq_true, if_false]
    unfold hasRel at *
    simp

lemma hasRel_pushIfAbsent_mono {t tid : String} {m : Member} (u v : String)
    (h : hasRel m t tid = true) : hasRel (pushIfAbsent u v m) t tid = true := by
  rcases relations_pushIfAbsent u v m with hr | ⟨hr, _⟩ <;>
    · unfold hasRel at *
      rw [hr]
      simp_all

/-! ### Basic lemmas about `updateFirst` -/

lemma updateFirst_eq_self_of_none {l : List Member} {tid : String} {f : Member → Member}
    (h : l.find? (fun m => m.id == tid) = none) : updateFirst l tid f = l := by
  induction l with
  | nil => rfl
  | cons m rest ih =>
    rw [List.find?_cons] at h
    unfold updateFirst
    cases hm : (m.id == tid) with
    | true => simp [hm] at h
    | false =>
      simp only [hm] at h
      rw [if_neg (by simp), ih h]

lemma updateFirst_eq_self_of_fix {l : List Member} {tid : String} {f : Member → Member}
    {m : Member} (h : l.find? (fun mm => mm.id == tid) = some m) (hm : f m = m) :
    updateFirst l tid f = l := by
  induction l with
  | nil => simp at h
  | cons a rest ih =>
    rw [List.find?_cons] at h
    unfold updateFirst
    cases ha : (a.id == tid) with
    | true =>
      simp only [ha] at h
      cases h
      simp [hm]
    | false =>
      simp only [ha] at h
      rw [if_neg (by simp), ih h]

lemma find?_updateFirst_self {l : List Member} {tid : String} {f : Member → Member}
    (hf : ∀ m, (f m).id = m.id) :
    (updateFirst l tid f).find? (fun m => m.id == tid) =
      (l.find? (fun m => m.id == tid)).map f := by
  induction l with
  | nil => rfl
  | cons a rest ih =>
    unfold updateFirst
    cases ha : (a.id == tid) with
    | true =>
      simp only [ha, if_true]
      rw [List.find?_cons, List.find?_cons]
      have : ((f a).id == tid) = true := by rw [hf a]; exact ha
      simp [ha, this]
    | false =>
      simp only [ha, Bool.false_eq_true, if_false]
      rw [List.find?_cons, List.find?_cons]
      simp only [ha]
      exact ih

lemma find?_updateFirst_ne {l : List Member} {tid id : String} {f : Member → Member}
    (hf : ∀ m, (f m).id = m.id) (h : id ≠ tid) :
    (updateFirst l tid f).find? (fun m => m.id == id) =
      l.find? (fun m => m.id == id) := by
  induction l with
  | nil => rfl
  | cons a rest ih =>
    unfold updateFirst
    cases ha : (a.id == tid) with
    | true =>
      simp only [ha, if_true]
      rw [List.find?_cons, List.find?_cons]
      have haid : (a.id == id) = false := by
        rw [beq_iff_eq] at ha
        have htid : ¬(tid = id) := fun hh => h hh.symm
        simp [ha, htid]
      have hfid : ((f a).id == id) = false := by rw [hf a]; exact haid
      simp [haid, hfid]
    | false =>
      simp only [ha, Bool.false_eq_true, if_false]
      rw [List.find?_cons, List.find?_cons]
      cases haid : (a.id == id) with
      | true => rfl
      | false => exact ih

lemma mem_updateFirst_cases {x : Member} {l : List Member} {tid : String}
    {f : Member → Member} (hx : x ∈ updateFirst l tid f) :
    x ∈ l ∨ ∃ m ∈ l, m.id = tid ∧ x = f m := by
  induction l with
  | nil => simp [updateFirst] at hx
  | cons a rest ih =>
    unfold updateFirst at hx
    by_cases ha : (a.id == tid) = true
    · rw [if_pos ha] at hx
      rcases List.mem_cons.mp hx with h | h
      · exact Or.inr ⟨a, List.mem_cons_self a rest, beq_iff_eq.mp ha, h⟩
      · exact Or.inl (List.mem_cons_of_mem a h)
    · rw [if_neg ha] at hx
      rcases List.mem_cons.mp hx with h | h
      · exact Or.inl (h ▸ List.mem_cons_self a rest)
      · rcases ih h with h' | ⟨m, hm, hid, hxm⟩
        · exact Or.inl (List.mem_cons_of_mem a h')
        · exact Or.inr ⟨m, List.mem_cons_of_mem a hm, hid, hxm⟩

lemma exists_mem_updateFirst {m : Member} {l : List Member} (tid : String)
    (f : Member → Member) (hm : m ∈ l) :
    ∃ x ∈ updateFirst l tid f, (x = m ∨ x = f m) := by
  induction l with
  | nil => simp at hm
  | cons a rest ih =>
    unfold updateFirst
    by_cases ha : (a.id == tid) = true
    · rw [if_pos ha]
      rcases List.mem_cons.mp hm with h | h
      · exact ⟨f a, List.mem_cons_self _ _, Or.inr (by rw [h])⟩
      · exact ⟨m, List.mem_cons_of_mem _ h, Or.inl rfl⟩
    · rw [if_neg ha]
      rcases List.mem_cons.mp hm with h | h
      · exact ⟨a, List.mem_cons_self _ _, Or.inl h.symm⟩
      · rcases ih h with ⟨x, hx, hxm⟩
        exact ⟨x, List.mem_cons_of_mem _ hx, hxm⟩

lemma find?_isSome_updateFirst {l : List Member} {tid id : String} {f : Member → Member}
    (hf : ∀ m, (f m).id = m.id) :
    ((updateFirst l tid f).find? (fun m => m.id == id)).isSome =
      (l.find? (fun m => m.id == id)).isSome := by
  by_cases h : id = tid
  · subst h; rw [find?_updateFirst_self hf]; simp [Option.isSome_map]
  · rw [find?_updateFirst_ne hf h]

/-! ### Lemmas about `addRelationPair` -/

lemma addRelationPair_not_found {l : List Member} {id1 id2 t : String}
    (h : l.find? (fun m => m.id == id1) = none ∨ l.find? (fun m => m.id == id2) = none) :
    addRelationPair l id1 id2 t = l := by
  unfold addRelationPair
  rcases h with h | h
  · rw [h]
  · rw [h]
    cases l.find? (fun m => m.id == id1) <;> rfl

lemma find?_isSome_addRelationPair (l : List Member) (id1 id2 t id : String) :
    ((addRelationPair l id1 id2 t).find? (fun m => m.id == id)).isSome =
      (l.find? (fun m => m.id == id)).isSome := by
  unfold addRelationPair
  cases h1 : l.find? (fun m => m.id == id1) with
  | none => simp
  | some m1 =>
    cases h2 : l.find? (fun m => m.id == id2) with
    | none => simp
    | some m2 =>
      simp only
      rw [find?_isSome_updateFirst (fun m => pushIfAbsent_id _ _ m),
        find?_isSome_updateFirst (fun m => pushIfAbsent_id _ _ m)]

/-- Relation lists only grow: the relations of the member looked up by
any id after `addRelationPair` are those before, possibly extended with
the one or two pairs the call may push. -/
lemma relationsOfId_updateFirst_push (l : List Member) (tid u v x : String) :
    ∃ extra : List Relation,
      relationsOfId (updateFirst l tid (pushIfAbsent u v)) x = relationsOfId l x ++ extra ∧
        ∀ r ∈ extra, x = tid ∧ r = ⟨u, v⟩ := by
  by_cases h : x = tid
  · subst h
    unfold relationsOfId
    rw [find?_updateFirst_self (fun m => pushIfAbsent_id _ _ m)]
    cases hf : l.find? (fun m => m.id == x) with
    | none => exact ⟨[], by simp⟩
    | some m =>
      rcases relations_pushIfAbsent u v m with hr | ⟨hr, _⟩
      · exact ⟨[], by simp [hr]⟩
      · exact ⟨[⟨u, v⟩], by simp [hr]⟩
  · unfold relationsOfId
    rw [find?_updateFirst_ne (fun m => pushIfAbsent_id _ _ m) h]
    exact ⟨[], by simp⟩

lemma relationsOfId_addRelationPair (l : List Member) (id1 id2 t x : String) :
    ∃ extra : List Relation,
      relationsOfId (addRelationPair l id1 id2 t) x = relationsOfId l x ++ extra ∧
        ∀ r ∈ extra, (x = id1 ∧ r = ⟨t, id2⟩) ∨ (x = id2 ∧ r = ⟨reciprocal t, id1⟩) := by
  unfold addRelationPair
  cases h1 : l.find? (fun m => m.id == id1) with
  | none => exact ⟨[], by simp⟩
  | some m1 =>
    cases h2 : l.find? (fun m => m.id == id2) with
    | none => exact ⟨[], by simp⟩
    | some m2 =>
      simp only
      rcases relationsOfId_updateFirst_push l id1 t id2 x with ⟨e1, he1, he1p⟩
      rcases relationsOfId_updateFirst_push (updateFirst l id1 (pushIfAbsent t id2)) id2
        (reciprocal t) id1 x with ⟨e2, he2, he2p⟩
      refine ⟨e1 ++ e2, ?_, ?_⟩
      · rw [he2, he1, List.append_assoc]
      · intro r hr
        rcases List.mem_append.mp hr with hr | hr
        · exact Or.inl (he1p r hr)
        · exact Or.inr (he2p r hr)

lemma relationsOfId_addRelationPair_other {l : List Member} {id1 id2 t x : String}
    (hx1 : x ≠ id1) (hx2 : x ≠ id2) :
    relationsOfId (addRelationPair l id1 id2 t) x = relationsOfId l x := by
  rcases relationsOfId_addRelationPair l id1 id2 t x with ⟨extra, he, hp⟩
  have : extra = [] := by
    cases extra with
    | nil => rfl
    | cons r rs =>
      rcases hp r (List.mem_cons_self _ _) with ⟨h, _⟩ | ⟨h, _⟩
      · exact absurd h hx1
      · exact absurd h hx2
  rw [he, this, List.append_nil]

lemma hasRelId_eq_any (l : List Member) (id t tid : String) :
    hasRelId l id t tid = (relationsOfId l id).any fun r => r.targetId == tid && r.type == t := by
  unfold hasRelId relationsOfId hasRel
  cases l.find? (fun m => m.id == id) <;> simp

lemma hasRelId_mono_of_append {l l' : List Member} {id t tid : String}
    (h : hasRelId l id t tid = true)
    (hrel : ∃ extra, relationsOfId l' id = relationsOfId l id ++ extra) :
    hasRelId l' id t tid = true := by
  rcases hrel with ⟨extra, he⟩
  rw [hasRelId_eq_any] at h ⊢
  rw [he, List.any_append, h, Bool.true_or]

lemma hasRelId_addRelationPair_mono {l : List Member} {id t tid : String}
    (id1 id2 u : String) (h : hasRelId l id t tid = true) :
    hasRelId (addRelationPair l id1 id2 u) id t tid = true := by
  refine hasRelId_mono_of_append h ?_
  rcases relationsOfId_addRelationPair l id1 id2 u id with ⟨extra, he, _⟩
  exact ⟨extra, he⟩

lemma hasRelId_of_find? {l : List Member} {id t tid : String} {m : Member}
    (hf : l.find? (fun mm => mm.id == id) = some m) (h : hasRel m t tid = true) :
    hasRelId l id t tid = true := by
  unfold hasRelId; rw [hf]; exact h

/-- After a successful `addRelationPair id1 id2 t`, the member found at
`id1` holds `(t, id2)` and the member found at `id2` holds
`(reciprocal t, id1)`. -/
lemma hasRelId_addRelationPair_self {l : List Member} {id1 id2 t : String}
    (h1 : (l.find? (fun m => m.id == id1)).isSome = true)
    (h2 : (l.find? (fun m => m.id == id2)).isSome = true) :
    hasRelId (addRelationPair l id1 id2 t) id1 t id2 = true ∧
      hasRelId (addRelationPair l id1 id2 t) id2 (reciprocal t) id1 = true := by
  unfold addRelationPair
  cases hf1 : l.find? (fun m => m.id == id1) with
  | none => rw [hf1] at h1; simp at h1
  | some m1 =>
    cases hf2 : l.find? (fun m => m.id == id2) with
    | none => rw [hf2] at h2; simp at h2
    | some m2 =>
      simp only
      set l1 := updateFirst l id1 (pushIfAbsent t id2) with hl1
      set l2 := updateFirst l1 id2 (pushIfAbsent (reciprocal t) id1) with hl2
      by_cases heq : id1 = id2
      · subst heq
        have hfind1 : l1.find? (fun m => m.id == id1) = some (pushIfAbsent t id1 m1) := by
          rw [hl1, find?_updateFirst_self (fun m => pushIfAbsent_id _ _ m), hf1]; rfl
        have hfind2 : l2.find? (fun m => m.id == id1) =
            some (pushIfAbsent (reciprocal t) id1 (pushIfAbsent t id1 m1)) := by
          rw [hl2, find?_updateFirst_self (fun m => pushIfAbsent_id _ _ m), hfind1]; rfl
        constructor
        · exact hasRelId_of_find? hfind2
            (hasRel_pushIfAbsent_mono _ _ (hasRel_pushIfAbsent_self _ _ _))
        · exact hasRelId_of_find? hfind2 (hasRel_pushIfAbsent_self _ _ _)
      · have hfind1 : l1.find? (fun m => m.id == id1) = some (pushIfAbsent t id2 m1) := by
          rw [hl1, find?_updateFirst_self (fun m => pushIfAbsent_id _ _ m), hf1]; rfl
        have hfind1' : l2.find? (fun m => m.id == id1) = some (pushIfAbsent t id2 m1) := by
          rw [hl2, find?_updateFirst_ne (fun m => pushIfAbsent_id _ _ m) heq, hfind1]
        have hfind2 : l1.find? (fun m => m.id == id2) = l.find? (fun m => m.id == id2) := by
          rw [hl1, find?_updateFirst_ne (fun m => pushIfAbsent_id _ _ m)
            (fun hh => heq hh.symm)]
        have hfind2' : l2.find? (fun m => m.id == id2) =
            some (pushIfAbsent (reciprocal t) id1 m2) := by
          rw [hl2, find?_updateFirst_self (fun m => pushIfAbsent_id _ _ m), hfind2, hf2]; rfl
        constructor
        · exact hasRelId_of_find? hfind1' (hasRel_pushIfAbsent_self _ _ _)
        · exact hasRelId_of_find? hfind2' (hasRel_pushIfAbsent_self _ _ _)

/-- `addRelationPair` is the identity when both directed pairs are
already present (or when either endpoint is missing). -/
lemma addRelationPair_eq_self {l : List Member} {id1 id2 t : String}
    (h1 : hasRelId l id1 t id2 = true)
    (h2 : hasRelId l id2 (reciprocal t) id1 = true) :
    addRelationPair l id1 id2 t = l := by
  unfold hasRelId at h1 h2
  unfold addRelationPair
  cases hf1 : l.find? (fun m => m.id == id1) with
  | none => simp [hf1] at h1
  | some m1 =>
    cases hf2 : l.find? (fun m => m.id == id2) with
    | none => simp [hf2] at h2
    | some m2 =>
      rw [hf1] at h1; rw [hf2] at h2
      simp only
      have e1 : updateFirst l id1 (pushIfAbsent t id2) = l :=
        updateFirst_eq_self_of_fix hf1 (pushIfAbsent_eq_self h1)
      rw [e1]
      exact updateFirst_eq_self_of_fix hf2 (pushIfAbsent_eq_self h2)

lemma exists_of_hasRelId {l : List Member} {id t tid : String}
    (h : hasRelId l id t tid = true) : ∃ m ∈ l, m.id = id ∧ hasRel m t tid = true := by
  unfold hasRelId at h
  cases hf : l.find? (fun m => m.id == id) with
  | none => simp [hf] at h
  | some m =>
    rw [hf] at h
    have hp := List.find?_some hf
    exact ⟨m, List.mem_of_find?_eq_some hf, by simpa using hp, h⟩

lemma mem_relations_pushIfAbsent {r : Relation} {u v : String} {m : Member}
    (h : r ∈ (pushIfAbsent u v m).relations) : r ∈ m.relations ∨ r = ⟨u, v⟩ := by
  rcases relations_pushIfAbsent u v m with he | ⟨he, _⟩
  · rw [he] at h; exact Or.inl h
  · rw [he] at h
    rcases List.mem_append.mp h with h | h
    · exact Or.inl h
    · exact Or.inr (List.mem_singleton.mp h)

/-- Every relation present after `addRelationPair` is either an original
relation of a member with the same id, or one of the two pairs the call
may have pushed. -/
lemma mem_relations_addRelationPair {x : Member} {l : List Member} {a b t : String}
    {r : Relation} (hx : x ∈ addRelationPair l a b t) (hr : r ∈ x.relations) :
    (∃ m ∈ l, m.id = x.id ∧ r ∈ m.relations) ∨
      (x.id = a ∧ r = ⟨t, b⟩) ∨ (x.id = b ∧ r = ⟨reciprocal t, a⟩) := by
  cases hfa : l.find? (fun m => m.id == a) with
  | none =>
    rw [addRelationPair_not_found (Or.inl hfa)] at hx
    exact Or.inl ⟨x, hx, rfl, hr⟩
  | some ma =>
    cases hfb : l.find? (fun m => m.id == b) with
    | none =>
      rw [addRelationPair_not_found (Or.inr hfb)] at hx
      exact Or.inl ⟨x, hx, rfl, hr⟩
    | some mb =>
      have hx' : x ∈ updateFirst (updateFirst l a (pushIfAbsent t b)) b
          (pushIfAbsent (reciprocal t) a) := by
        unfold addRelationPair at hx
        rw [hfa, hfb] at hx
        exact hx
      -- decomposition of a member of the once-updated list
      have inner : ∀ y : Member, y ∈ updateFirst l a (pushIfAbsent t b) →
          ∀ s : Relation, s ∈ y.relations →
          (∃ m ∈ l, m.id = y.id ∧ s ∈ m.relations) ∨ (y.id = a ∧ s = ⟨t, b⟩) := by
        intro y hy s hs
        rcases mem_updateFirst_cases hy with hy' | ⟨m, hm, hid, hym⟩
        · exact Or.inl ⟨y, hy', rfl, hs⟩
        · have hyid : y.id = m.id := by rw [hym]; exact pushIfAbsent_id _ _ m
          rw [hym] at hs
          rcases mem_relations_pushIfAbsent hs with hs' | hs'
          · exact Or.inl ⟨m, hm, hyid.symm, hs'⟩
          · exact Or.inr ⟨by rw [hyid, hid], hs'⟩
      rcases mem_updateFirst_cases hx' with hx1 | ⟨m', hm', hid', hxm'⟩
      · rcases inner x hx1 r hr with h | h
        · exact Or.inl h
        · exact Or.inr (Or.inl h)
      · have hxid : x.id = m'.id := by rw [hxm']; exact pushIfAbsent_id _ _ m'
        rw [hxm'] at hr
        rcases mem_relations_pushIfAbsent hr with hr' | hr'
        · rcases inner m' hm' r hr' with h | ⟨hida, hre⟩
          · rcases h with ⟨m, hm, hmid, hrm⟩
            exact Or.inl ⟨m, hm, by rw [hmid, ← hxid], hrm⟩
          · exact Or.inr (Or.inl ⟨by rw [hxid, hida], hre⟩)
        · exact Or.inr (Or.inr ⟨by rw [hxid, hid'], hr'⟩)

/-- Every member of the original list lifts to a member of the updated
list with the same id holding at least the same relations. -/
lemma exists_lift_updateFirst {m : Member} {l : List Member} (tid u v : String)
    (hm : m ∈ l) :
    ∃ x ∈ updateFirst l tid (pushIfAbsent u v), x.id = m.id ∧
      ∀ t' tid', hasRel m t' tid' = true → hasRel x t' tid' = true := by
  rcases exists_mem_updateFirst tid (pushIfAbsent u v) hm with ⟨x, hx, hxm | hxm⟩
  · exact ⟨x, hx, by rw [hxm], fun t' tid' h => by rw [hxm]; exact h⟩
  · exact ⟨x, hx, by rw [hxm]; exact pushIfAbsent_id _ _ m,
      fun t' tid' h => by rw [hxm]; exact hasRel_pushIfAbsent_mono _ _ h⟩

lemma exists_lift_addRelationPair {m : Member} {l : List Member} (a b t : String)
    (hm : m ∈ l) :
    ∃ x ∈ addRelationPair l a b t, x.id = m.id ∧
      ∀ t' tid', hasRel m t' tid' = true → hasRel x t' tid' = true := by
  cases hfa : l.find? (fun mm => mm.id == a) with
  | none => rw [addRelationPair_not_found (Or.inl hfa)]; exact ⟨m, hm, rfl, fun _ _ h => h⟩
  | some ma =>
    cases hfb : l.find? (fun mm => mm.id == b) with
    | none => rw [addRelationPair_not_found (Or.inr hfb)]; exact ⟨m, hm, rfl, fun _ _ h => h⟩
    | some mb =>
      have hAP : addRelationPair l a b t =
          updateFirst (updateFirst l a (pushIfAbsent t b)) b
            (pushIfAbsent (reciprocal t) a) := by
        unfold addRelationPair; rw [hfa, hfb]
      rcases exists_lift_updateFirst a t b hm with ⟨y, hy, hyid, hymono⟩
      rcases exists_lift_updateFirst b (reciprocal t) a hy with ⟨x, hx, hxid, hxmono⟩
      rw [hAP]
      exact ⟨x, hx, by rw [hxid, hyid], fun t' tid' h => hxmono _ _ (hymono _ _ h)⟩

lemma reciprocityHolds_iff (l : List Member) : reciprocityHolds l = true ↔
    ∀ a ∈ l, ∀ r ∈ a.relations,
      ∃ b ∈ l, b.id = r.targetId ∧ hasRel b (reciprocal r.type) a.id = true := by
  unfold reciprocityHolds
  simp [List.all_eq_true, List.any_eq_true, Bool.and_eq_true, beq_iff_eq]

/-- `addRelationPair` preserves the reciprocity invariant whenever the
inserted type's reciprocal maps back to it (true for every type the
mutator actually inserts). -/
lemma reciprocity_addRelationPair {l : List Member} {a b t : String}
    (ht : reciprocal (reciprocal t) = t) (hinv : reciprocityHolds l = true) :
    reciprocityHolds (addRelationPair l a b t) = true := by
  rw [reciprocityHolds_iff] at hinv ⊢
  cases hfa : l.find? (fun m => m.id == a) with
  | none => rw [addRelationPair_not_found (Or.inl hfa)]; exact hinv
  | some ma =>
    cases hfb : l.find? (fun m => m.id == b) with
    | none => rw [addRelationPair_not_found (Or.inr hfb)]; exact hinv
    | some mb =>
      have hsa : (l.find? (fun m => m.id == a)).isSome = true := by rw [hfa]; rfl
      have hsb : (l.find? (fun m => m.id == b)).isSome = true := by rw [hfb]; rfl
      intro x hx r hr
      rcases mem_relations_addRelationPair hx hr with ⟨m, hm, hid, hrm⟩ | ⟨hid, hre⟩ | ⟨hid, hre⟩
      · rcases hinv m hm r hrm with ⟨bb, hbb, hbid, hbrel⟩
        rcases exists_lift_addRelationPair a b t hbb with ⟨x', hx', hxid, hmono⟩
        refine ⟨x', hx', by rw [hxid, hbid], ?_⟩
        rw [← hid]
        exact hmono _ _ hbrel
      · have h := (hasRelId_addRelationPair_self (t := t) hsa hsb).2
        rcases exists_of_hasRelId h with ⟨bb, hbb, hbid, hbrel⟩
        refine ⟨bb, hbb, by rw [hbid, hre], ?_⟩
        rw [hre, hid]
        exact hbrel
      · have h := (hasRelId_addRelationPair_self (t := t) hsa hsb).1
        rcases exists_of_hasRelId h with ⟨bb, hbb, hbid, hbrel⟩
        refine ⟨bb, hbb, by rw [hbid, hre], ?_⟩
        rw [hre, hid]
        simp only [ht]
        exact hbrel

/-! ### Preservation of the reciprocity invariant (spec §8, claim C1) -/

lemma reciprocityHolds_append_newMember {l : List Member} (id name : String)
    (hinv : reciprocityHolds l = true) :
    reciprocityHolds (l ++ [newMember id name]) = true := by
  rw [reciprocityHolds_iff] at hinv ⊢
  intro a ha r hr
  rcases List.mem_append.mp ha with ha' | ha'
  · rcases hinv a ha' r hr with ⟨b, hb, hbid, hbrel⟩
    exact ⟨b, List.mem_append.mpr (Or.inl hb), hbid, hbrel⟩
  · rw [List.mem_singleton.mp ha'] at hr
    simp [newMember] at hr

lemma reciprocityHolds_resolvedList {members : List Member} (useNewTarget : Bool)
    (newTargetName freshId : String) (hinv : reciprocityHolds members = true) :
    reciprocityHolds (resolvedList members useNewTarget newTargetName freshId) = true := by
  unfold resolvedList
  split
  · exact reciprocityHolds_append_newMember _ _ hinv
  · exact hinv

lemma reciprocal_reciprocal_child : reciprocal (reciprocal "child") = "child" := by decide

lemma reciprocal_reciprocal_qstr (qt : QType) : reciprocal (reciprocal qt.str) = qt.str := by
  cases qt <;> decide

lemma reciprocity_foldl_children {ft : String} (cs : List Relation) (l : List Member)
    (hinv : reciprocityHolds l = true) :
    reciprocityHolds
      (cs.foldl (fun acc c => addRelationPair acc ft (Relation.targetId c) "child") l)
      = true := by
  induction cs generalizing l with
  | nil => exact hinv
  | cons c rest ih =>
    rw [List.foldl_cons]
    exact ih _ (reciprocity_addRelationPair reciprocal_reciprocal_child hinv)

lemma reciprocity_propagate {l1 : List Member} (sourceId ft : String) (qt : QType)
    (hinv : reciprocityHolds l1 = true) :
    reciprocityHolds (propagate l1 sourceId ft qt) = true := by
  cases qt with
  | child =>
    unfold propagate
    cases (relationsOfId l1 sourceId).find? spousePred with
    | some r => exact reciprocity_addRelationPair reciprocal_reciprocal_child hinv
    | none => exact hinv
  | spouse => exact reciprocity_foldl_children _ _ hinv
  | sibling => exact hinv

/-- Claim C1.  For every graph whose members all hold reciprocal
relations, after any relation edit applied by `saveQuickRelation`, every
relation `(R, B)` held by a member `A` has a member with id `B` holding
`(reciprocal R, A.id)` — where `reciprocal` maps parent to child, child
to parent, spouse to spouse, partner to partner, sibling to sibling and
anything else to `other`. -/
theorem saveQuickRelation_preserves_reciprocity
    (members out : List Member) (sourceId newTargetName freshId : String)
    (qt : QType) (useNewTarget : Bool) (targetId : Option String)
    (hinv : reciprocityHolds members = true)
    (hok : saveQuickRelation members sourceId qt useNewTarget newTargetName targetId freshId
      = Except.ok out) :
    reciprocityHolds out = true := by
  unfold saveQuickRelation at hok
  by_cases h1 : (useNewTarget && jsTrim newTargetName == "") = true
  · rw [if_pos h1] at hok; cases hok
  · rw [if_neg h1] at hok
    cases hft : resolvedTargetId useNewTarget freshId targetId with
    | none => rw [hft] at hok; cases hok
    | some ft =>
      rw [hft] at hok
      dsimp only at hok
      by_cases h2 : (ft == "") = true
      · rw [if_pos h2] at hok; cases hok
      · rw [if_neg h2] at hok
        by_cases h3 : (ft == sourceId) = true
        · rw [if_pos h3] at hok; cases hok
        · rw [if_neg h3] at hok
          cases hok
          exact reciprocity_propagate _ _ _
            (reciprocity_addRelationPair (reciprocal_reciprocal_qstr qt)
              (reciprocityHolds_resolvedList _ _ _ hinv))

/-- Witness for C1: a concrete spousal couple with reciprocal relations;
adding a new child to one of them yields a graph that still satisfies the
reciprocity invariant. -/
theorem saveQuickRelation_preserves_reciprocity_witness :
    reciprocityHolds
      [{ id := "s", name := "S", dob := none, email := none, photo := none,
         relations := [⟨"spouse", "t"⟩] },
       { id := "t", name := "T", dob := none, email := none, photo := none,
         relations := [⟨"spouse", "s"⟩] }] = true ∧
    reciprocityHolds
      [{ id := "s", name := "S", dob := none, email := none, photo := none,
         relations := [⟨"spouse", "t"⟩, ⟨"child", "k"⟩] },
       { id := "t", name := "T", dob := none, email := none, photo := none,
         relations := [⟨"spouse", "s"⟩, ⟨"child", "k"⟩] },
       { id := "k", name := "Kid", dob := none, email := none, photo := none,
         relations := [⟨"parent", "s"⟩, ⟨"parent", "t"⟩] }] = true :=
  ⟨by decide,
    saveQuickRelation_preserves_reciprocity
      [{ id := "s", name := "S", dob := none, email := none, photo := none,
         relations := [⟨"spouse", "t"⟩] },
       { id := "t", name := "T", dob := none, email := none, photo := none,
         relations := [⟨"spouse", "s"⟩] }]
      _ "s" "Kid" "k" QType.child true none (by decide) (by rfl)⟩

/-! ### Preservation of pair-uniqueness (claim C9) -/

lemma pairwise_pushIfAbsent {m : Member} (u v : String)
    (h : m.relations.Pairwise distinctPair) :
    (pushIfAbsent u v m).relations.Pairwise distinctPair := by
  rcases relations_pushIfAbsent u v m with he | ⟨he, habs⟩
  · rw [he]; exact h
  · rw [he, List.pairwise_append]
    refine ⟨h, List.pairwise_singleton _ _, ?_⟩
    intro r hr s hs
    rw [List.mem_singleton.mp hs]
    unfold hasRel at habs
    rw [List.any_eq_false] at habs
    have hr' := habs r hr
    simp only [Bool.and_eq_true, beq_iff_eq, not_and] at hr'
    rintro ⟨h1, h2⟩
    exact hr' h2 h1

lemma noDupPairs_updateFirst {l : List Member} (tid u v : String)
    (h : noDupPairs l) : noDupPairs (updateFirst l tid (pushIfAbsent u v)) := by
  intro x hx
  rcases mem_updateFirst_cases hx with hx' | ⟨m, hm, _, hxm⟩
  · exact h x hx'
  · rw [hxm]; exact pairwise_pushIfAbsent _ _ (h m hm)

lemma noDupPairs_addRelationPair {l : List Member} (a b t : String)
    (h : noDupPairs l) : noDupPairs (addRelationPair l a b t) := by
  cases hfa : l.find? (fun m => m.id == a) with
  | none => rw [addRelationPair_not_found (Or.inl hfa)]; exact h
  | some ma =>
    cases hfb : l.find? (fun m => m.id == b) with
    | none => rw [addRelationPair_not_found (Or.inr hfb)]; exact h
    | some mb =>
      have hAP : addRelationPair l a b t =
          updateFirst (updateFirst l a (pushIfAbsent t b)) b
            (pushIfAbsent (reciprocal t) a) := by
        unfold addRelationPair; rw [hfa, hfb]
      rw [hAP]
      exact noDupPairs_updateFirst _ _ _ (noDupPairs_updateFirst _ _ _ h)

lemma noDupPairs_resolvedList {members : List Member} (useNewTarget : Bool)
    (newTargetName freshId : String) (h : noDupPairs members) :
    noDupPairs (resolvedList members useNewTarget newTargetName freshId) := by
  unfold resolvedList
  split
  · intro m hm
    rcases List.mem_append.mp hm with hm' | hm'
    · exact h m hm'
    · rw [List.mem_singleton.mp hm']
      simp [newMember]
  · exact h

lemma noDupPairs_foldl_children {ft : String} (cs : List Relation) (l : List Member)
    (h : noDupPairs l) :
    noDupPairs
      (cs.foldl (fun acc c => addRelationPair acc ft (Relation.targetId c) "child") l) := by
  induction cs generalizing l with
  | nil => exact h
  | cons c rest ih =>
    rw [List.foldl_cons]
    exact ih _ (noDupPairs_addRelationPair _ _ _ h)

lemma noDupPairs_propagate {l1 : List Member} (sourceId ft : String) (qt : QType)
    (h : noDupPairs l1) : noDupPairs (propagate l1 sourceId ft qt) := by
  cases qt with
  | child =>
    unfold propagate
    cases (relationsOfId l1 sourceId).find? spousePred with
    | some r => exact noDupPairs_addRelationPair _ _ _ h
    | none => exact h
  | spouse => exact noDupPairs_foldl_children _ _ h
  | sibling => exact h

/-- Claim C9.  If no member's relation list contains two entries with the
same `(type, targetId)` pair, the same holds after any relation edit
applied by `saveQuickRelation` (every insert is guarded by an exact-pair
absence check). -/
theorem saveQuickRelation_preserves_noDupPairs
    (members out : List Member) (sourceId newTargetName freshId : String)
    (qt : QType) (useNewTarget : Bool) (targetId : Option String)
    (hnd : noDupPairs members)
    (hok : saveQuickRelation members sourceId qt useNewTarget newTargetName targetId freshId
      = Except.ok out) :
    noDupPairs out := by
  unfold saveQuickRelation at hok
  by_cases h1 : (useNewTarget && jsTrim newTargetName == "") = true
  · rw [if_pos h1] at hok; cases hok
  · rw [if_neg h1] at hok
    cases hft : resolvedTargetId useNewTarget freshId targetId with
    | none => rw [hft] at hok; cases hok
    | some ft =>
      rw [hft] at hok
      dsimp only at hok
      by_cases h2 : (ft == "") = true
      · rw [if_pos h2] at hok; cases hok
      · rw [if_neg h2] at hok
        by_cases h3 : (ft == sourceId) = true
        · rw [if_pos h3] at hok; cases hok
        · rw [if_neg h3] at hok
          cases hok
          exact noDupPairs_propagate _ _ _
            (noDupPairs_addRelationPair _ _ _
              (noDupPairs_resolvedList _ _ _ hnd))

/-- A concrete couple with a shared child, used to instantiate C9. -/
def coupleWithChild : List Member :=
  [{ id := "a", name := "A", dob := none, email := none, photo := none,
     relations := [⟨"spouse", "b"⟩, ⟨"child", "c"⟩] },
   { id := "b", name := "B", dob := none, email := none, photo := none,
     relations := [⟨"spouse", "a"⟩, ⟨"child", "c"⟩] },
   { id := "c", name := "C", dob := none, email := none, photo := none,
     relations := [⟨"parent", "a"⟩, ⟨"parent", "b"⟩] }]

/-- Witness for C9: re-adding an existing child relation to a couple
leaves every relation list free of duplicate pairs. -/
theorem saveQuickRelation_preserves_noDupPairs_witness :
    noDupPairs coupleWithChild ∧
    noDupPairs (commitQuickRelation coupleWithChild "a" QType.child false "" (some "c") "z") :=
  ⟨by decide,
    saveQuickRelation_preserves_noDupPairs coupleWithChild
      (commitQuickRelation coupleWithChild "a" QType.child false "" (some "c") "z")
      "a" "" "z" QType.child false (some "c") (by decide) (by rfl)⟩

/-! ### The import sanitizer never returns the reject sentinel (claim C3)
and the joint-parenting propagation can create self-relations (claim C2). -/

/-- The shape-sniffing ternary yields an array on every input, so the
`!Array.isArray(rawList)` rejection guard downstream is unreachable. -/
lemma rawListOf_arr (data : Json) : ∃ xs, rawListOf data = Json.arr xs := by
  unfold rawListOf
  cases data with
  | arr xs => exact ⟨xs, rfl⟩
  | null => exact ⟨[], rfl⟩
  | bool b => exact ⟨[], rfl⟩
  | num n => exact ⟨[], rfl⟩
  | str s => exact ⟨[], rfl⟩
  | obj fs =>
    cases hg : Json.get (Json.obj fs) "members" with
    | none => exact ⟨[], rfl⟩
    | some v =>
      cases v with
      | arr xs => exact ⟨xs, rfl⟩
      | null => exact ⟨[], rfl⟩
      | bool b => exact ⟨[], rfl⟩
      | num n => exact ⟨[], rfl⟩
      | str s => exact ⟨[], rfl⟩
      | obj gs => exact ⟨[], rfl⟩

/-- Claim C3 (code bug evidence).  `normalizeImportedFamily` never
returns the reject sentinel: every decoded JSON value - including a
plain number, which the spec says must be rejected - produces a member
list, and the result for the number `42` coincides with the empty-array
result for a zero-member import instead of being distinct from it. -/
theorem normalizeImportedFamily_never_rejects :
    (∀ data : Json, (normalizeImportedFamily data).isSome = true) ∧
    normalizeImportedFamily (Json.num 42) = some [] ∧
    normalizeImportedFamily (Json.arr []) = some [] := by
  refine ⟨?_, rfl, rfl⟩
  intro data
  obtain ⟨xs, hxs⟩ := rawListOf_arr data
  unfold normalizeImportedFamily
  rw [hxs]
  dsimp only
  split <;> rfl

/-- A married couple holding only mutual spouse relations. -/
def marriedCouple : List Member :=
  [{ id := "s", name := "S", dob := none, email := none, photo := none,
     relations := [⟨"spouse", "t"⟩] },
   { id := "t", name := "T", dob := none, email := none, photo := none,
     relations := [⟨"spouse", "s"⟩] }]

/-- Claim C2 (code bug evidence).  Starting from a self-relation-free
couple, a child edit whose resolved target is the source's own spouse
makes the joint-parenting propagation call `addRelationPair` with the
spouse's id on both sides, leaving member `t` with the self-relations
`(child, t)` and `(parent, t)`. -/
theorem joint_parenting_creates_self_relation :
    hasSelfRelation marriedCouple = false ∧
    hasSelfRelation (commitQuickRelation marriedCouple "s" QType.child false "" (some "t") "x")
      = true ∧
    hasRelId (commitQuickRelation marriedCouple "s" QType.child false "" (some "t") "x")
      "t" "child" "t" = true := by
  refine ⟨by decide, by decide, by decide⟩

/-! ### Validation failures leave the graph untouched (claim C4) -/

lemma commitQuickRelation_of_error {members : List Member} {sourceId newTargetName freshId :
    String} {qt : QType} {useNewTarget : Bool} {targetId : Option String} {e : VErr}
    (h : saveQuickRelation members sourceId qt useNewTarget newTargetName targetId freshId
      = Except.error e) :
    commitQuickRelation members sourceId qt useNewTarget newTargetName targetId freshId
      = members := by
  unfold commitQuickRelation
  rw [h]

/-- Claim C4.  Every relation-edit request failing validation - empty
trimmed new-member name, no existing target selected (or an empty-id
pick, which JavaScript treats as falsy), or a resolved target equal to
the source - makes `saveQuickRelation` return an error, and the
committed state is the unchanged input graph. -/
theorem saveQuickRelation_validation_no_mutation
    (members : List Member) (sourceId newTargetName freshId : String)
    (qt : QType) (useNewTarget : Bool) (targetId : Option String)
    (h : (useNewTarget = true ∧ jsTrim newTargetName = "") ∨
         (useNewTarget = false ∧ (targetId = none ∨ targetId = some "")) ∨
         resolvedTargetId useNewTarget freshId targetId = some sourceId) :
    ∃ e, saveQuickRelation members sourceId qt useNewTarget newTargetName targetId freshId
        = Except.error e ∧
      commitQuickRelation members sourceId qt useNewTarget newTargetName targetId freshId
        = members := by
  have main : ∃ e,
      saveQuickRelation members sourceId qt useNewTarget newTargetName targetId freshId
        = Except.error e := by
    unfold saveQuickRelation
    by_cases h1 : (useNewTarget && jsTrim newTargetName == "") = true
    · rw [if_pos h1]; exact ⟨_, rfl⟩
    · rw [if_neg h1]
      rcases h with ⟨hu, hn⟩ | ⟨hu, ht⟩ | hres
      · exact absurd (by rw [hu, hn]; rfl) h1
      · have hrt : resolvedTargetId useNewTarget freshId targetId = targetId := by
          unfold resolvedTargetId; rw [hu]; rfl
        rcases ht with ht | ht
        · rw [hrt, ht]; exact ⟨_, rfl⟩
        · rw [hrt, ht]; exact ⟨VErr.noTarget, rfl⟩
      · rw [hres]
        dsimp only
        by_cases hs : (sourceId == "") = true
        · rw [if_pos hs]; exact ⟨_, rfl⟩
        · rw [if_neg hs, if_pos (by simp)]; exact ⟨_, rfl⟩
  rcases main with ⟨e, he⟩
  exact ⟨e, he, commitQuickRelation_of_error he⟩

/-- Witness for C4: submitting a new-member child edit with a blank name
on a one-member graph errors out and commits nothing. -/
theorem saveQuickRelation_validation_no_mutation_witness :
    ∃ e, saveQuickRelation
        [{ id := "s", name := "S", dob := none, email := none, photo := none,
           relations := [] }] "s" QType.child true " " none "x"
        = Except.error e ∧
      commitQuickRelation
        [{ id := "s", name := "S", dob := none, email := none, photo := none,
           relations := [] }] "s" QType.child true " " none "x"
        = [{ id := "s", name := "S", dob := none, email := none, photo := none,
             relations := [] }] :=
  saveQuickRelation_validation_no_mutation _ "s" " " "x" QType.child true none
    (Or.inl ⟨rfl, by decide⟩)

/-! ### Dangling-reference pruning (claim C7) -/

/-- Claim C7.  Whatever member list the import sanitizer returns, every
surviving relation's `targetId` is the id of some member of that same
list: relations pointing outside the surviving id set are pruned by the
second pass rather than causing a rejection. -/
theorem normalizeImportedFamily_prunes_dangling
    (data : Json) (l : List Member)
    (hok : normalizeImportedFamily data = some l) :
    ∀ m ∈ l, ∀ r ∈ m.relations, ∃ b ∈ l, b.id = r.targetId := by
  obtain ⟨items, hitems⟩ := rawListOf_arr data
  unfold normalizeImportedFamily at hok
  rw [hitems] at hok
  dsimp only at hok
  by_cases hlen : ((sanitizeItems items []).length == 0) = true
  · rw [if_pos hlen] at hok
    cases hok
    intro m hm
    simp at hm
  · rw [if_neg hlen] at hok
    cases hok
    intro m hm r hr
    rcases List.mem_map.mp hm with ⟨m0, hm0, hmm⟩
    rw [← hmm] at hr
    dsimp only at hr
    have hr' := List.mem_filter.mp hr
    have hmem : r.targetId ∈ (sanitizeItems items []).map Member.id := by
      exact List.mem_of_elem_eq_true hr'.2
    rcases List.mem_map.mp hmem with ⟨b0, hb0, hbid⟩
    exact ⟨{ b0 with relations := b0.relations.filter fun rr =>
        ((sanitizeItems items []).map Member.id).contains rr.targetId },
      List.mem_map.mpr ⟨b0, hb0, rfl⟩, hbid⟩

/-- The sanitized output of a two-member export where `a` carries one
dangling relation (pruned) and one relation to `b` (kept). -/
def prunedPair : List Member :=
  [{ id := "a", name := "A", dob := none, email := none, photo := none,
     relations := [⟨"child", "b"⟩] },
   { id := "b", name := "B", dob := none, email := none, photo := none, relations := [] }]

/-- Witness for C7: member `a`'s surviving relation (`child`, `b`) -
the dangling (`child`, `missing`) entry having been pruned - targets a
member of the returned list. -/
theorem normalizeImportedFamily_prunes_dangling_witness :
    ∃ b ∈ prunedPair, Member.id b = "b" :=
  normalizeImportedFamily_prunes_dangling
    (Json.obj [("members", Json.arr [
      Json.obj [("id", Json.str "a"), ("name", Json.str "A"),
        ("relations", Json.arr [
          Json.obj [("type", Json.str "child"), ("targetId", Json.str "missing")],
          Json.obj [("type", Json.str "child"), ("targetId", Json.str "b")]])],
      Json.obj [("id", Json.str "b"), ("name", Json.str "B")]])])
    prunedPair (by rfl)
    { id := "a", name := "A", dob := none, email := none, photo := none,
      relations := [⟨"child", "b"⟩] }
    (by decide) ⟨"child", "b"⟩ (by decide)

/-! ### The per-item pass against claim C8's description -/

/-- Spec-side keep test, following claim C8's words with `non-empty`
amended to `non-blank` (empty after trimming whitespace): an object with
a non-blank string `id`, a non-blank string `name`, and an `id` unequal
to the id of every earlier kept item. -/
def keptBySpec (item : Json) (earlierKeptIds : List String) : Bool :=
  item.isObj &&
    (match item.getStr "id", item.getStr "name" with
     | some id, some name =>
        !(jsTrim id == "") && !(jsTrim name == "") && !(earlierKeptIds.contains id)
     | _, _ => false)

/-- Spec-side per-item pass: keep exactly the items passing `keptBySpec`
against the ids of earlier kept items, silently dropping the rest, in
input order. -/
def specKeptMembers : List Json → List String → List Member
  | [], _ => []
  | item :: rest, seen =>
    if keptBySpec item seen
    then buildMember item :: specKeptMembers rest (((item.getStr "id").getD "") :: seen)
    else specKeptMembers rest seen

/-- Spec-side keep test exactly as claim C8 words it: literally
non-empty `id` and `name` strings, with no trimming. -/
def keptBySpecLiteral (item : Json) (earlierKeptIds : List String) : Bool :=
  item.isObj &&
    (match item.getStr "id", item.getStr "name" with
     | some id, some name =>
        !(id == "") && !(name == "") && !(earlierKeptIds.contains id)
     | _, _ => false)

/-- The per-item pass as claim C8 literally describes it. -/
def specKeptMembersLiteral : List Json → List String → List Member
  | [], _ => []
  | item :: rest, seen =>
    if keptBySpecLiteral item seen
    then buildMember item :: specKeptMembersLiteral rest (((item.getStr "id").getD "") :: seen)
    else specKeptMembersLiteral rest seen

lemma Json.isObj_of_getStr {item : Json} {k : String} {s : String}
    (h : item.getStr k = some s) : item.isObj = true := by
  cases item
  case obj fs => rfl
  all_goals simp [Json.getStr, Json.get] at h

lemma not_mem_of_contains_eq_false {l : List String} {a : String}
    (h : l.contains a = false) : a ∉ l := by
  simp at h; exact h

lemma sanitizeItems_cons_no_id {item : Json} {rest : List Json} {seen : List String}
    (hid : item.getStr "id" = none) :
    sanitizeItems (item :: rest) seen = sanitizeItems rest seen := by
  conv_lhs => unfold sanitizeItems
  rw [hid]

lemma sanitizeItems_cons_blank_id {item : Json} {rest : List Json} {seen : List String}
    {id : String} (hid : item.getStr "id" = some id) (hb : (jsTrim id == "") = true) :
    sanitizeItems (item :: rest) seen = sanitizeItems rest seen := by
  conv_lhs => unfold sanitizeItems
  rw [hid]; dsimp only; rw [if_pos hb]

lemma sanitizeItems_cons_no_name {item : Json} {rest : List Json} {seen : List String}
    {id : String} (hid : item.getStr "id" = some id) (hb : (jsTrim id == "") = false)
    (hname : item.getStr "name" = none) :
    sanitizeItems (item :: rest) seen = sanitizeItems rest seen := by
  conv_lhs => unfold sanitizeItems
  rw [hid]; dsimp only; rw [if_neg (by simp [hb]), hname]

lemma sanitizeItems_cons_blank_name {item : Json} {rest : List Json} {seen : List String}
    {id name : String} (hid : item.getStr "id" = some id) (hb : (jsTrim id == "") = false)
    (hname : item.getStr "name" = some name) (hnb : (jsTrim name == "") = true) :
    sanitizeItems (item :: rest) seen = sanitizeItems rest seen := by
  conv_lhs => unfold sanitizeItems
  rw [hid]; dsimp only
  rw [if_neg (by simp [hb]), hname]; dsimp only
  rw [if_pos hnb]

lemma sanitizeItems_cons_seen {item : Json} {rest : List Json} {seen : List String}
    {id name : String} (hid : item.getStr "id" = some id) (hb : (jsTrim id == "") = false)
    (hname : item.getStr "name" = some name) (hnb : (jsTrim name == "") = false)
    (hseen : seen.contains id = true) :
    sanitizeItems (item :: rest) seen = sanitizeItems rest seen := by
  conv_lhs => unfold sanitizeItems
  rw [hid]; dsimp only
  rw [if_neg (by simp [hb]), hname]; dsimp only
  rw [if_neg (by simp [hnb]), if_pos hseen]

lemma sanitizeItems_cons_kept {item : Json} {rest : List Json} {seen : List String}
    {id name : String} (hid : item.getStr "id" = some id) (hb : (jsTrim id == "") = false)
    (hname : item.getStr "name" = some name) (hnb : (jsTrim name == "") = false)
    (hseen : seen.contains id = false) :
    sanitizeItems (item :: rest) seen = buildMember item :: sanitizeItems rest (id :: seen) := by
  conv_lhs => unfold sanitizeItems
  rw [hid]; dsimp only
  rw [if_neg (by simp [hb]), hname]; dsimp only
  rw [if_neg (by simp [hnb]), if_neg (by intro hcon; rw [hseen] at hcon; cases hcon)]

/-- Counterexample to claim C8 as stated: the items
`{id: " ", name: "A"}` and `{id: "b", name: " "}` are objects with
non-empty string ids and names and distinct ids, so the literal claim
keeps both, yet the sanitizer's per-item pass drops both (it tests the
trimmed strings). -/
theorem sanitizeItems_ne_literal_spec :
    sanitizeItems
        [Json.obj [("id", Json.str " "), ("name", Json.str "A")],
         Json.obj [("id", Json.str "b"), ("name", Json.str " ")]] [] = [] ∧
    specKeptMembersLiteral
        [Json.obj [("id", Json.str " "), ("name", Json.str "A")],
         Json.obj [("id", Json.str "b"), ("name", Json.str " ")]] [] ≠ [] := by
  refine ⟨by decide, by decide⟩

/-- Claim C8 (amended: `non-empty` read as non-blank after trimming).
The per-item pass keeps exactly the items that are objects carrying a
non-blank string id and name whose id differs from every earlier kept
id, in input order, and a kept item's relation entry whose `type` is not
a string is given type `"other"`. -/
theorem sanitizeItems_eq_specKeptMembers :
    (∀ (items : List Json) (seen : List String),
      sanitizeItems items seen = specKeptMembers items seen) ∧
    (∀ r : Json, r.getStr "type" = none → (mapRelation r).type = "other") := by
  constructor
  · intro items
    induction items with
    | nil => intro seen; rfl
    | cons item rest ih =>
      intro seen
      cases hid : item.getStr "id" with
      | none =>
        have hk : keptBySpec item seen = false := by
          unfold keptBySpec
          rw [hid]
          cases item.getStr "name" <;> simp
        rw [sanitizeItems_cons_no_id hid]
        unfold specKeptMembers
        rw [hk, if_neg (by simp), ih seen]
      | some id =>
        have hobj : item.isObj = true := Json.isObj_of_getStr hid
        cases hblank : (jsTrim id == "") with
        | true =>
          have hk : keptBySpec item seen = false := by
            unfold keptBySpec
            rw [hid, hobj]
            cases item.getStr "name" with
            | none => simp
            | some name => simp [hblank]
          rw [sanitizeItems_cons_blank_id hid hblank]
          unfold specKeptMembers
          rw [hk, if_neg (by simp), ih seen]
        | false =>
          cases hname : item.getStr "name" with
          | none =>
            have hk : keptBySpec item seen = false := by
              unfold keptBySpec
              rw [hid, hname]
              simp
            rw [sanitizeItems_cons_no_name hid hblank hname]
            unfold specKeptMembers
            rw [hk, if_neg (by simp), ih seen]
          | some name =>
            cases hnblank : (jsTrim name == "") with
            | true =>
              have hk : keptBySpec item seen = false := by
                unfold keptBySpec
                rw [hid, hname]
                simp [hnblank]
              rw [sanitizeItems_cons_blank_name hid hblank hname hnblank]
              unfold specKeptMembers
              rw [hk, if_neg (by simp), ih seen]
            | false =>
              cases hseen : seen.contains id with
              | true =>
                have hk : keptBySpec item seen = false := by
                  unfold keptBySpec
                  rw [hid, hname]
                  have hm : id ∈ seen := by simp at hseen; exact hseen
                  simp [hm]
                rw [sanitizeItems_cons_seen hid hblank hname hnblank hseen]
                unfold specKeptMembers
                rw [hk, if_neg (by simp), ih seen]
              | false =>
                have hk : keptBySpec item seen = true := by
                  unfold keptBySpec
                  rw [hid, hname, hobj]
                  have hm : id ∉ seen := not_mem_of_contains_eq_false hseen
                  simp [hblank, hnblank, hm]
                rw [sanitizeItems_cons_kept hid hblank hname hnblank hseen]
                unfold specKeptMembers
                rw [hk, if_pos rfl, hid]
                simp only [Option.getD_some]
                rw [ih (id :: seen)]
  · intro r h
    unfold mapRelation
    rw [h]

/-- Witness for C8: a two-item batch with one blank-name item keeps only
the valid item, and a relation entry with a numeric `type` is defaulted
to `"other"`. -/
theorem sanitizeItems_eq_specKeptMembers_witness :
    sanitizeItems
        [Json.obj [("id", Json.str "a"), ("name", Json.str "A")],
         Json.obj [("id", Json.str "b"), ("name", Json.str " ")]] []
      = specKeptMembers
        [Json.obj [("id", Json.str "a"), ("name", Json.str "A")],
         Json.obj [("id", Json.str "b"), ("name", Json.str " ")]] [] ∧
    (mapRelation (Json.obj [("type", Json.num 7), ("targetId", Json.str "a")])).type
      = "other" :=
  ⟨sanitizeItems_eq_specKeptMembers.1 _ [],
   sanitizeItems_eq_specKeptMembers.2 _ (by rfl)⟩

/-! ### Support lemmas for the joint-parenting claims -/

lemma find?_append_cases {α : Type} (p : α → Bool) (l1 l2 : List α) :
    (l1 ++ l2).find? p =
      match l1.find? p with
      | some a => some a
      | none => l2.find? p := by
  induction l1 with
  | nil => simp
  | cons a rest ih =>
    rw [List.cons_append, List.find?_cons, List.find?_cons]
    cases hpa : p a
    · simpa [hpa] using ih
    · simp [hpa]

lemma find?_isSome_append {α : Type} {p : α → Bool} {l1 : List α} (l2 : List α)
    (h : (l1.find? p).isSome = true) : ((l1 ++ l2).find? p).isSome = true := by
  rw [find?_append_cases]
  cases hf : l1.find? p
  · rw [hf] at h; cases h
  · rfl

lemma relationsOfId_append_of_ne {l : List Member} {m : Member} {x : String}
    (h : ¬(m.id = x)) : relationsOfId (l ++ [m]) x = relationsOfId l x := by
  unfold relationsOfId
  rw [find?_append_cases]
  cases hf : l.find? (fun mm => mm.id == x)
  · have hm : (m.id == x) = false := by simp [h]
    simp [List.find?_cons, hm]
  · rfl

lemma relationsOfId_resolvedList_of_ne {members : List Member} {useNewTarget : Bool}
    {newTargetName freshId x : String} (h : ¬(freshId = x)) :
    relationsOfId (resolvedList members useNewTarget newTargetName freshId) x =
      relationsOfId members x := by
  unfold resolvedList
  split
  · exact relationsOfId_append_of_ne (by simpa [newMember] using h)
  · rfl

lemma find?_isSome_resolvedList {members : List Member} (useNewTarget : Bool)
    (newTargetName freshId : String) {x : String}
    (h : (members.find? (fun m => m.id == x)).isSome = true) :
    ((resolvedList members useNewTarget newTargetName freshId).find?
      (fun m => m.id == x)).isSome = true := by
  unfold resolvedList
  split
  · exact find?_isSome_append _ h
  · exact h

/-- Inserting a child pair never changes which spouse-or-partner
relation is found first on any member (the pushed entries have types
`child` and `parent`). -/
lemma spousePred_child_entry (b : String) : spousePred ⟨"child", b⟩ = false := rfl

lemma spousePred_parent_entry (a : String) : spousePred ⟨"parent", a⟩ = false := rfl

lemma reciprocal_child_eq : reciprocal "child" = "parent" := rfl

lemma reciprocal_spouse_eq : reciprocal "spouse" = "spouse" := rfl

lemma find?_spousePred_addRelationPair_child (l : List Member) (a b x : String) :
    (relationsOfId (addRelationPair l a b "child") x).find? spousePred =
      (relationsOfId l x).find? spousePred := by
  rcases relationsOfId_addRelationPair l a b "child" x with ⟨extra, he, hp⟩
  rw [he, find?_append_cases]
  have hex : extra.find? spousePred = none := by
    rw [List.find?_eq_none]
    intro r hr
    rcases hp r hr with ⟨_, hre⟩ | ⟨_, hre⟩
    · rw [hre]; simp [spousePred_child_entry]
    · rw [hre, reciprocal_child_eq]; simp [spousePred_parent_entry]
  cases hf : (relationsOfId l x).find? spousePred
  · exact hex
  · rfl

/-- Inserting a child pair with source `a` does not change the `child`
entries of any member other than `a` (the reciprocal entry pushed at `b`
has type `parent`). -/
lemma filter_child_addRelationPair_child {l : List Member} {a b x : String}
    (hx : ¬(x = a)) :
    (relationsOfId (addRelationPair l a b "child") x).filter (fun r => r.type == "child") =
      (relationsOfId l x).filter (fun r => r.type == "child") := by
  rcases relationsOfId_addRelationPair l a b "child" x with ⟨extra, he, hp⟩
  rw [he, List.filter_append]
  have hex : extra.filter (fun r => r.type == "child") = [] := by
    rw [List.filter_eq_nil_iff]
    intro r hr
    rcases hp r hr with ⟨hxa, _⟩ | ⟨_, hre⟩
    · exact absurd hxa hx
    · rw [hre, reciprocal_child_eq]; simp
  rw [hex, List.append_nil]

/-- Inserting a spouse pair does not change the `child` entries of any
member (both pushed entries have type `spouse`). -/
lemma filter_child_addRelationPair_spouse (l : List Member) (a b x : String) :
    (relationsOfId (addRelationPair l a b "spouse") x).filter (fun r => r.type == "child") =
      (relationsOfId l x).filter (fun r => r.type == "child") := by
  rcases relationsOfId_addRelationPair l a b "spouse" x with ⟨extra, he, hp⟩
  rw [he, List.filter_append]
  have hex : extra.filter (fun r => r.type == "child") = [] := by
    rw [List.filter_eq_nil_iff]
    intro r hr
    rcases hp r hr with ⟨_, hre⟩ | ⟨_, hre⟩
    · rw [hre]; simp
    · rw [hre, reciprocal_spouse_eq]; simp
  rw [hex, List.append_nil]

lemma hasRelId_foldl_mono {l : List Member} {ft id t tid : String} (cs : List Relation)
    (h : hasRelId l id t tid = true) :
    hasRelId
      (cs.foldl (fun acc c => addRelationPair acc ft (Relation.targetId c) "child") l)
      id t tid = true := by
  induction cs generalizing l with
  | nil => exact h
  | cons c rest ih =>
    rw [List.foldl_cons]
    exact ih (hasRelId_addRelationPair_mono _ _ _ h)

lemma find?_isSome_foldl {ft x : String} (cs : List Relation) (l : List Member)
    (h : (l.find? (fun m => m.id == x)).isSome = true) :
    ((cs.foldl (fun acc c => addRelationPair acc ft (Relation.targetId c) "child") l).find?
      (fun m => m.id == x)).isSome = true := by
  induction cs generalizing l with
  | nil => exact h
  | cons c rest ih =>
    rw [List.foldl_cons]
    exact ih _ (by rw [find?_isSome_addRelationPair]; exact h)

/-- Folding child inserts over a relation list establishes the pair for
every processed entry whose endpoints exist. -/
lemma foldl_addRelationPair_establish {ft : String} (cs : List Relation) (l : List Member)
    (hft : (l.find? (fun m => m.id == ft)).isSome = true)
    {c : Relation} (hc : c ∈ cs)
    (hcp : (l.find? (fun m => m.id == Relation.targetId c)).isSome = true) :
    hasRelId
        (cs.foldl (fun acc x => addRelationPair acc ft (Relation.targetId x) "child") l)
        ft "child" (Relation.targetId c) = true ∧
      hasRelId
        (cs.foldl (fun acc x => addRelationPair acc ft (Relation.targetId x) "child") l)
        (Relation.targetId c) "parent" ft = true := by
  induction cs generalizing l with
  | nil => cases hc
  | cons c' rest ih =>
    rw [List.foldl_cons]
    rcases List.mem_cons.mp hc with hceq | hcr
    · subst hceq
      have h := hasRelId_addRelationPair_self (t := "child") hft hcp
      have hrc : reciprocal "child" = "parent" := by decide
      rw [hrc] at h
      exact ⟨hasRelId_foldl_mono rest h.1, hasRelId_foldl_mono rest h.2⟩
    · exact ih _ (by rw [find?_isSome_addRelationPair]; exact hft) hcr
        (by rw [find?_isSome_addRelationPair]; exact hcp)

/-- Unpacking of a successful `saveQuickRelation` call: the resolved
target exists, passed validation, and the output is the propagation of
the main insert over the resolved list. -/
lemma saveQuickRelation_ok_cases {members out : List Member}
    {sourceId newTargetName freshId : String} {qt : QType} {useNewTarget : Bool}
    {targetId : Option String}
    (hok : saveQuickRelation members sourceId qt useNewTarget newTargetName targetId freshId
      = Except.ok out) :
    ∃ ft, resolvedTargetId useNewTarget freshId targetId = some ft ∧
      (ft == "") = false ∧ (ft == sourceId) = false ∧
      out = propagate
        (addRelationPair (resolvedList members useNewTarget newTargetName freshId)
          sourceId ft qt.str)
        sourceId ft qt ∧
      (useNewTarget && jsTrim newTargetName == "") = false := by
  unfold saveQuickRelation at hok
  by_cases h1 : (useNewTarget && jsTrim newTargetName == "") = true
  · rw [if_pos h1] at hok; cases hok
  · rw [if_neg h1] at hok
    cases hft : resolvedTargetId useNewTarget freshId targetId with
    | none => rw [hft] at hok; cases hok
    | some ft =>
      rw [hft] at hok
      dsimp only at hok
      by_cases h2 : (ft == "") = true
      · rw [if_pos h2] at hok; cases hok
      · rw [if_neg h2] at hok
        by_cases h3 : (ft == sourceId) = true
        · rw [if_pos h3] at hok; cases hok
        · rw [if_neg h3] at hok
          cases hok
          exact ⟨ft, rfl, by simpa using h2, by simpa using h3, rfl, by simpa using h1⟩

/-! ### Joint-parenting propagation (claims C5 and C10) -/

lemma resolvedTargetId_new {useNewTarget : Bool} {freshId : String}
    {targetId : Option String} {ft : String}
    (h : resolvedTargetId useNewTarget freshId targetId = some ft)
    (hu : useNewTarget = true) : freshId = ft := by
  unfold resolvedTargetId at h
  rw [hu] at h
  simpa using h

lemma relationsOfId_resolvedList_cond {members : List Member} {useNewTarget : Bool}
    {newTargetName freshId x : String} (h : useNewTarget = true → ¬(freshId = x)) :
    relationsOfId (resolvedList members useNewTarget newTargetName freshId) x =
      relationsOfId members x := by
  unfold resolvedList
  by_cases hu : useNewTarget = true
  · rw [if_pos hu]
    exact relationsOfId_append_of_ne (by simpa [newMember] using h hu)
  · rw [if_neg hu]

/-- The double spouse/partner lookup of a child edit is evaluated on the
post-insert state, but inserting the child pair cannot change it. -/
lemma find?_spousePred_after_main_insert (members : List Member) {useNewTarget : Bool}
    (newTargetName : String) {freshId sourceId : String} (ft : String)
    (hnew : useNewTarget = true → ¬(freshId = sourceId)) :
    (relationsOfId
        (addRelationPair (resolvedList members useNewTarget newTargetName freshId)
          sourceId ft "child") sourceId).find? spousePred =
      (relationsOfId members sourceId).find? spousePred := by
  rw [find?_spousePred_addRelationPair_child, relationsOfId_resolvedList_cond hnew]

/-- Claim C5, amended: the child-edit half holds for the target of the
source's FIRST spouse-or-partner relation (the code looks up only the
first such entry).  For a child edit with source `S` and resolved,
existing target `T`: if the first spouse-or-partner relation of `S`
targets an existing member `M`, then afterwards `M` holds `(child, T)`
and `T` holds `(parent, M)`; and for a spouse edit, every existing
member `C` that `S` lists as a child ends with `T` holding `(child, C)`
and `C` holding `(parent, T)`. -/
theorem saveQuickRelation_joint_parenting
    (members out : List Member) (sourceId newTargetName freshId ft : String)
    (qt : QType) (useNewTarget : Bool) (targetId : Option String)
    (hok : saveQuickRelation members sourceId qt useNewTarget newTargetName targetId freshId
      = Except.ok out)
    (hft : resolvedTargetId useNewTarget freshId targetId = some ft)
    (hftMem : ((resolvedList members useNewTarget newTargetName freshId).find?
      (fun m => m.id == ft)).isSome = true) :
    (qt = QType.child →
      ∀ r0 : Relation, (relationsOfId members sourceId).find? spousePred = some r0 →
        (members.find? (fun m => m.id == Relation.targetId r0)).isSome = true →
        hasRelId out (Relation.targetId r0) "child" ft = true ∧
          hasRelId out ft "parent" (Relation.targetId r0) = true) ∧
    (qt = QType.spouse →
      ∀ r ∈ relationsOfId members sourceId, r.type = "child" →
        (members.find? (fun m => m.id == Relation.targetId r)).isSome = true →
        hasRelId out ft "child" (Relation.targetId r) = true ∧
          hasRelId out (Relation.targetId r) "parent" ft = true) := by
  rcases saveQuickRelation_ok_cases hok with ⟨ft', hft', hne, hns, hout, hname⟩
  rw [hft'] at hft
  cases hft
  have hnew : useNewTarget = true → ¬(freshId = sourceId) := by
    intro hu heq
    rw [resolvedTargetId_new hft' hu] at heq
    rw [heq] at hns
    simp at hns
  constructor
  · intro hq r0 hr0 hr0mem
    subst hq
    rw [hout]
    unfold propagate
    have hsp := find?_spousePred_after_main_insert members newTargetName ft hnew
    rw [show QType.str QType.child = "child" from rfl]
    rw [hsp, hr0]
    have hr0l1 : ((addRelationPair (resolvedList members useNewTarget newTargetName freshId)
        sourceId ft "child").find? (fun m => m.id == Relation.targetId r0)).isSome = true := by
      rw [find?_isSome_addRelationPair]
      exact find?_isSome_resolvedList _ _ _ hr0mem
    have hftl1 : ((addRelationPair (resolvedList members useNewTarget newTargetName freshId)
        sourceId ft "child").find? (fun m => m.id == ft)).isSome = true := by
      rw [find?_isSome_addRelationPair]
      exact hftMem
    have h := hasRelId_addRelationPair_self (t := "child") hr0l1 hftl1
    rw [reciprocal_child_eq] at h
    exact h
  · intro hq r hr hrchild hrmem
    subst hq
    rw [hout]
    unfold propagate childrenOf
    rw [show QType.str QType.spouse = "spouse" from rfl]
    have hl1 : (relationsOfId
        (addRelationPair (resolvedList members useNewTarget newTargetName freshId)
          sourceId ft "spouse") sourceId).filter (fun rr => rr.type == "child") =
        (relationsOfId members sourceId).filter (fun rr => rr.type == "child") := by
      rw [filter_child_addRelationPair_spouse, relationsOfId_resolvedList_cond hnew]
    rw [hl1]
    have hrin : r ∈ (relationsOfId members sourceId).filter (fun rr => rr.type == "child") :=
      List.mem_filter.mpr ⟨hr, by simp [hrchild]⟩
    exact foldl_addRelationPair_establish _ _
      (by rw [find?_isSome_addRelationPair]; exact hftMem) hrin
      (by rw [find?_isSome_addRelationPair]; exact find?_isSome_resolvedList _ _ _ hrmem)

/-- A source with two spouses and an unrelated member `k`. -/
def doubleSpouse : List Member :=
  [{ id := "s", name := "S", dob := none, email := none, photo := none,
     relations := [⟨"spouse", "m1"⟩, ⟨"spouse", "m2"⟩] },
   { id := "m1", name := "M1", dob := none, email := none, photo := none,
     relations := [⟨"spouse", "s"⟩] },
   { id := "m2", name := "M2", dob := none, email := none, photo := none,
     relations := [⟨"spouse", "s"⟩] },
   { id := "k", name := "K", dob := none, email := none, photo := none,
     relations := [] }]

/-- Counterexample to claim C5 as stated: `s` holds a spouse relation to
the member `m2`, a child edit linking `k` to `s` succeeds (it links `s`
and the first spouse `m1`), yet `m2` gains no `(child, k)` relation. -/
theorem joint_parenting_skips_second_spouse :
    (⟨"spouse", "m2"⟩ : Relation) ∈ relationsOfId doubleSpouse "s" ∧
    (doubleSpouse.find? (fun m => m.id == "m2")).isSome = true ∧
    hasRelId (commitQuickRelation doubleSpouse "s" QType.child false "" (some "k") "z")
      "s" "child" "k" = true ∧
    hasRelId (commitQuickRelation doubleSpouse "s" QType.child false "" (some "k") "z")
      "m1" "child" "k" = true ∧
    hasRelId (commitQuickRelation doubleSpouse "s" QType.child false "" (some "k") "z")
      "m2" "child" "k" = false := by
  refine ⟨by decide, by decide, by decide, by decide, by decide⟩

/-- A fresh couple for instantiating the amended C5: `a` and `b` are
spouses and `c` is an existing unrelated member. -/
def coupleAndStranger : List Member :=
  [{ id := "a", name := "A", dob := none, email := none, photo := none,
     relations := [⟨"spouse", "b"⟩] },
   { id := "b", name := "B", dob := none, email := none, photo := none,
     relations := [⟨"spouse", "a"⟩] },
   { id := "c", name := "C", dob := none, email := none, photo := none,
     relations := [] }]

/-- Witness for the amended C5: adding existing member `c` as a child of
`a` also links the first (only) spouse `b`: `b` gains `(child, c)` and
`c` gains `(parent, b)`. -/
theorem saveQuickRelation_joint_parenting_witness :
    hasRelId (commitQuickRelation coupleAndStranger "a" QType.child false "" (some "c") "z")
      "b" "child" "c" = true ∧
    hasRelId (commitQuickRelation coupleAndStranger "a" QType.child false "" (some "c") "z")
      "c" "parent" "b" = true :=
  (saveQuickRelation_joint_parenting coupleAndStranger
    (commitQuickRelation coupleAndStranger "a" QType.child false "" (some "c") "z")
    "a" "" "z" "c" QType.child false (some "c") (by rfl) (by rfl) (by decide)).1
    rfl ⟨"spouse", "b"⟩ (by rfl) (by decide)

/-- Claim C10, amended: a child edit rewrites only the source, the
resolved target, and the target of the source's first spouse-or-partner
relation.  Every other member - in particular the target of any later
spouse-or-partner relation of the source distinct from those three -
keeps exactly the same relation list, and so gains no relation to the
child. -/
theorem saveQuickRelation_child_frame
    (members out : List Member) (sourceId newTargetName freshId ft x : String)
    (useNewTarget : Bool) (targetId : Option String)
    (hok : saveQuickRelation members sourceId QType.child useNewTarget newTargetName targetId
      freshId = Except.ok out)
    (hft : resolvedTargetId useNewTarget freshId targetId = some ft)
    (hx1 : ¬(x = sourceId)) (hx2 : ¬(x = ft))
    (hx3 : ∀ r0 : Relation, (relationsOfId members sourceId).find? spousePred = some r0 →
      ¬(x = Relation.targetId r0)) :
    relationsOfId out x = relationsOfId members x := by
  rcases saveQuickRelation_ok_cases hok with ⟨ft', hft', hne, hns, hout, hname⟩
  rw [hft'] at hft
  cases hft
  have hnew : useNewTarget = true → ¬(freshId = sourceId) := by
    intro hu heq
    rw [resolvedTargetId_new hft' hu] at heq
    rw [heq] at hns
    simp at hns
  have hnewx : useNewTarget = true → ¬(freshId = x) := by
    intro hu heq
    rw [resolvedTargetId_new hft' hu] at heq
    exact hx2 heq.symm
  rw [hout]
  unfold propagate
  rw [show QType.str QType.child = "child" from rfl]
  have hbase :
      relationsOfId
        (addRelationPair (resolvedList members useNewTarget newTargetName freshId)
          sourceId ft "child") x = relationsOfId members x := by
    rw [relationsOfId_addRelationPair_other hx1 hx2]
    exact relationsOfId_resolvedList_cond hnewx
  have hsp := find?_spousePred_after_main_insert members newTargetName ft hnew
  cases hfsp : (relationsOfId
      (addRelationPair (resolvedList members useNewTarget newTargetName freshId)
        sourceId ft "child") sourceId).find? spousePred with
  | none => exact hbase
  | some r0 =>
    dsimp only
    have hr0 : (relationsOfId members sourceId).find? spousePred = some r0 := by
      rw [← hsp]; exact hfsp
    rw [relationsOfId_addRelationPair_other (hx3 r0 hr0) hx2]
    exact hbase

/-- Counterexample to claim C10 as stated: `s` holds a spouse relation
and then a partner relation both targeting `m`; `m` is the target of a
later spouse-or-partner relation of `s`, yet a child edit gives `m` the
relation `(child, k)`. -/
theorem later_spouse_relation_target_gains_child :
    relationsOfId
      [{ id := "s", name := "S", dob := none, email := none, photo := none,
         relations := [⟨"spouse", "m"⟩, ⟨"partner", "m"⟩] },
       { id := "m", name := "M", dob := none, email := none, photo := none,
         relations := [⟨"spouse", "s"⟩, ⟨"partner", "s"⟩] },
       { id := "k", name := "K", dob := none, email := none, photo := none,
         relations := [] }] "s" = [⟨"spouse", "m"⟩, ⟨"partner", "m"⟩] ∧
    spousePred ⟨"partner", "m"⟩ = true ∧
    hasRelId
      [{ id := "s", name := "S", dob := none, email := none, photo := none,
         relations := [⟨"spouse", "m"⟩, ⟨"partner", "m"⟩] },
       { id := "m", name := "M", dob := none, email := none, photo := none,
         relations := [⟨"spouse", "s"⟩, ⟨"partner", "s"⟩] },
       { id := "k", name := "K", dob := none, email := none, photo := none,
         relations := [] }] "m" "child" "k" = false ∧
    hasRelId
      (commitQuickRelation
        [{ id := "s", name := "S", dob := none, email := none, photo := none,
           relations := [⟨"spouse", "m"⟩, ⟨"partner", "m"⟩] },
         { id := "m", name := "M", dob := none, email := none, photo := none,
           relations := [⟨"spouse", "s"⟩, ⟨"partner", "s"⟩] },
         { id := "k", name := "K", dob := none, email := none, photo := none,
           relations := [] }] "s" QType.child false "" (some "k") "z")
      "m" "child" "k" = true := by
  refine ⟨by decide, by decide, by decide, by decide⟩

/-- Witness for the amended C10: in the two-spouse graph, the second
spouse `m2` (distinct from the source, the target and the first spouse
`m1`) keeps exactly its previous relation list. -/
theorem saveQuickRelation_child_frame_witness :
    relationsOfId (commitQuickRelation doubleSpouse "s" QType.child false "" (some "k") "z")
      "m2" = relationsOfId doubleSpouse "m2" :=
  saveQuickRelation_child_frame doubleSpouse
    (commitQuickRelation doubleSpouse "s" QType.child false "" (some "k") "z")
    "s" "" "z" "k" "m2" false (some "k") (by rfl) (by rfl) (by decide) (by decide)
    (fun r0 h => by
      rw [show (relationsOfId doubleSpouse "s").find? spousePred
          = some (⟨"spouse", "m1"⟩ : Relation) from rfl] at h
      cases Option.some.inj h
      decide)

/-! ### Auxiliary lemmas for idempotence (claim C6) -/

lemma saveQuickRelation_ok_form (members : List Member)
    {sourceId newTargetName freshId ft : String} {qt : QType} {useNewTarget : Bool}
    {targetId : Option String}
    (hname : (useNewTarget && jsTrim newTargetName == "") = false)
    (hft : resolvedTargetId useNewTarget freshId targetId = some ft)
    (hne : (ft == "") = false) (hns : (ft == sourceId) = false) :
    saveQuickRelation members sourceId qt useNewTarget newTargetName targetId freshId
      = Except.ok (propagate
          (addRelationPair (resolvedList members useNewTarget newTargetName freshId)
            sourceId ft qt.str)
          sourceId ft qt) := by
  unfold saveQuickRelation
  rw [if_neg (by simp [hname]), hft]
  dsimp only
  rw [if_neg (by simp [hne]), if_neg (by simp [hns])]

lemma hasRelId_propagate_mono {l : List Member} {id t tid : String}
    (sourceId ft : String) (qt : QType) (h : hasRelId l id t tid = true) :
    hasRelId (propagate l sourceId ft qt) id t tid = true := by
  cases qt with
  | child =>
    unfold propagate
    cases (relationsOfId l sourceId).find? spousePred with
    | some r => exact hasRelId_addRelationPair_mono _ _ _ h
    | none => exact h
  | spouse => exact hasRelId_foldl_mono _ h
  | sibling => exact h

lemma find?_isSome_foldl_eq {ft x : String} (cs : List Relation) (l : List Member) :
    ((cs.foldl (fun acc c => addRelationPair acc ft (Relation.targetId c) "child") l).find?
      (fun m => m.id == x)).isSome = ((l.find? (fun m => m.id == x)).isSome) := by
  induction cs generalizing l with
  | nil => rfl
  | cons c rest ih =>
    rw [List.foldl_cons, ih, find?_isSome_addRelationPair]

lemma find?_isSome_propagate (l : List Member) (sourceId ft : String) (qt : QType)
    (x : String) :
    ((propagate l sourceId ft qt).find? (fun m => m.id == x)).isSome =
      ((l.find? (fun m => m.id == x)).isSome) := by
  cases qt with
  | child =>
    unfold propagate
    cases (relationsOfId l sourceId).find? spousePred with
    | some r => exact find?_isSome_addRelationPair _ _ _ _ _
    | none => rfl
  | spouse => exact find?_isSome_foldl_eq _ _
  | sibling => rfl

lemma find?_none_append {l : List Member} {m : Member} {x : String}
    (hne : ¬(m.id = x)) (h : l.find? (fun mm => mm.id == x) = none) :
    (l ++ [m]).find? (fun mm => mm.id == x) = none := by
  rw [find?_append_cases, h]
  simp [List.find?_cons, hne]

lemma hasRelId_append_of_isSome {l : List Member} (m : Member) {id t tid : String}
    (h : (l.find? (fun mm => mm.id == id)).isSome = true) :
    hasRelId (l ++ [m]) id t tid = hasRelId l id t tid := by
  unfold hasRelId
  rw [find?_append_cases]
  cases hf : l.find? (fun mm => mm.id == id)
  · rw [hf] at h; cases h
  · rfl

lemma relationsOfId_append_of_present {l : List Member} {m : Member}
    (h : (l.find? (fun mm => mm.id == m.id)).isSome = true) (x : String) :
    relationsOfId (l ++ [m]) x = relationsOfId l x := by
  by_cases hx : m.id = x
  · unfold relationsOfId
    rw [find?_append_cases]
    subst hx
    cases hf : l.find? (fun mm => mm.id == m.id)
    · rw [hf] at h; cases h
    · rfl
  · exact relationsOfId_append_of_ne hx

lemma find?_isSome_append_self (l : List Member) (m : Member) :
    ((l ++ [m]).find? (fun mm => mm.id == m.id)).isSome = true := by
  rw [find?_append_cases]
  cases hf : l.find? (fun mm => mm.id == m.id)
  · simp [List.find?_cons]
  · rfl

lemma relationsOfId_of_find?_none {l : List Member} {x : String}
    (h : l.find? (fun m => m.id == x) = none) : relationsOfId l x = [] := by
  unfold relationsOfId
  rw [h]

lemma foldl_AP_eq_self {ft : String} {cs : List Relation} {l : List Member}
    (h : ∀ c ∈ cs, addRelationPair l ft (Relation.targetId c) "child" = l) :
    cs.foldl (fun acc c => addRelationPair acc ft (Relation.targetId c) "child") l = l := by
  induction cs with
  | nil => rfl
  | cons c rest ih =>
    rw [List.foldl_cons, h c (List.mem_cons_self _ _)]
    exact ih fun c' hc' => h c' (List.mem_cons_of_mem _ hc')

lemma filter_child_foldl {sourceId ft : String} (cs : List Relation) (l : List Member)
    (hx : ¬(sourceId = ft)) :
    (relationsOfId
        (cs.foldl (fun acc c => addRelationPair acc ft (Relation.targetId c) "child") l)
        sourceId).filter (fun r => r.type == "child") =
      (relationsOfId l sourceId).filter (fun r => r.type == "child") := by
  induction cs generalizing l with
  | nil => rfl
  | cons c rest ih =>
    rw [List.foldl_cons, ih, filter_child_addRelationPair_child hx]

lemma find?_spousePred_foldl (cs : List Relation) (l : List Member) (ft x : String) :
    (relationsOfId
        (cs.foldl (fun acc c => addRelationPair acc ft (Relation.targetId c) "child") l)
        x).find? spousePred = (relationsOfId l x).find? spousePred := by
  induction cs generalizing l with
  | nil => rfl
  | cons c rest ih =>
    rw [List.foldl_cons, ih, find?_spousePred_addRelationPair_child]

lemma resolvedList_existing (x : List Member) (n f : String) :
    resolvedList x false n f = x := rfl

lemma resolvedList_new (x : List Member) (n f : String) :
    resolvedList x true n f = x ++ [newMember f (jsTrim n)] := rfl

lemma propagate_of_source_absent {l : List Member} {sourceId : String} (ft : String)
    (qt : QType) (h : l.find? (fun m => m.id == sourceId) = none) :
    propagate l sourceId ft qt = l := by
  have hrel : relationsOfId l sourceId = [] := relationsOfId_of_find?_none h
  cases qt with
  | child =>
    unfold propagate
    rw [hrel]
    rfl
  | spouse =>
    unfold propagate childrenOf
    rw [hrel]
    rfl
  | sibling => rfl

lemma propagate_of_ft_absent {l : List Member} {ft : String} (sourceId : String)
    (qt : QType) (h : l.find? (fun m => m.id == ft) = none) :
    propagate l sourceId ft qt = l := by
  cases qt with
  | child =>
    unfold propagate
    cases (relationsOfId l sourceId).find? spousePred with
    | some r => exact addRelationPair_not_found (Or.inr h)
    | none => rfl
  | spouse =>
    exact foldl_AP_eq_self fun c _ => addRelationPair_not_found (Or.inl h)
  | sibling => rfl

lemma find?_isSome_append_of_present {l : List Member} {m : Member}
    (h : (l.find? (fun mm => mm.id == m.id)).isSome = true) (x : String) :
    ((l ++ [m]).find? (fun mm => mm.id == x)).isSome =
      ((l.find? (fun mm => mm.id == x)).isSome) := by
  by_cases hx : m.id = x
  · subst hx
    rw [find?_isSome_append_self, h]
  · rw [find?_append_cases]
    cases hf : l.find? (fun mm => mm.id == x)
    · simp [List.find?_cons, hx]
    · rfl

lemma hasRelId_congr {l l' : List Member} {x : String}
    (h : relationsOfId l x = relationsOfId l' x) (t tid : String) :
    hasRelId l x t tid = hasRelId l' x t tid := by
  rw [hasRelId_eq_any, h, ← hasRelId_eq_any]

lemma eq_none_of_isSome_eq_false {α : Type} {o : Option α}
    (h : o.isSome = false) : o = none := by
  cases o
  · rfl
  · cases h

/-- Re-running the joint-parenting propagation on any list that agrees
with the first run's output (up to lookups) changes no relation list. -/
lemma propagate_idem_on (out L0 l1 : List Member) (sourceId ft : String) (qt : QType)
    (hout : out = propagate l1 sourceId ft qt)
    (hL0rel : ∀ x, relationsOfId L0 x = relationsOfId out x)
    (hL0iso : ∀ x, (L0.find? (fun m => m.id == x)).isSome
      = (out.find? (fun m => m.id == x)).isSome)
    (hiso1 : ∀ x, (out.find? (fun m => m.id == x)).isSome
      = (l1.find? (fun m => m.id == x)).isSome)
    (hftl1 : (l1.find? (fun m => m.id == ft)).isSome = true)
    (hsrcft : ¬(sourceId = ft)) :
    ∀ id, relationsOfId (propagate L0 sourceId ft qt) id = relationsOfId out id := by
  intro id
  cases qt with
  | sibling =>
    subst hout
    exact hL0rel id
  | child =>
    have hstab : (relationsOfId out sourceId).find? spousePred
        = (relationsOfId l1 sourceId).find? spousePred := by
      rw [hout]
      unfold propagate
      dsimp only
      cases hr1 : (relationsOfId l1 sourceId).find? spousePred with
      | none => dsimp only; exact hr1
      | some r0 =>
        dsimp only
        rw [find?_spousePred_addRelationPair_child, hr1]
    have hstab2 : (relationsOfId L0 sourceId).find? spousePred
        = (relationsOfId l1 sourceId).find? spousePred := by
      rw [hL0rel, hstab]
    unfold propagate
    dsimp only
    rw [hstab2]
    cases hr1 : (relationsOfId l1 sourceId).find? spousePred with
    | none => exact hL0rel id
    | some r0 =>
      dsimp only
      have hout2 : out = addRelationPair l1 (Relation.targetId r0) ft "child" := by
        rw [hout]
        unfold propagate
        dsimp only
        rw [hr1]
      cases hr0p : l1.find? (fun m => m.id == Relation.targetId r0) with
      | none =>
        have hnone : L0.find? (fun m => m.id == Relation.targetId r0) = none := by
          apply eq_none_of_isSome_eq_false
          rw [hL0iso, hiso1, hr0p]
          rfl
        rw [addRelationPair_not_found (Or.inl hnone)]
        exact hL0rel id
      | some _ =>
        have hr0p' : (l1.find? (fun m => m.id == Relation.targetId r0)).isSome = true := by
          rw [hr0p]; rfl
        have h2 := hasRelId_addRelationPair_self (t := "child") hr0p' hftl1
        rw [reciprocal_child_eq] at h2
        rw [← hout2] at h2
        have hA2 : hasRelId L0 (Relation.targetId r0) "child" ft = true := by
          rw [hasRelId_congr (hL0rel _)]
          exact h2.1
        have hB2 : hasRelId L0 ft "parent" (Relation.targetId r0) = true := by
          rw [hasRelId_congr (hL0rel _)]
          exact h2.2
        rw [addRelationPair_eq_self (t := "child") hA2
          (by rw [reciprocal_child_eq]; exact hB2)]
        exact hL0rel id
  | spouse =>
    have hout2 : out = (childrenOf l1 sourceId).foldl
        (fun acc c => addRelationPair acc ft (Relation.targetId c) "child") l1 := hout
    have hcs : childrenOf L0 sourceId = childrenOf l1 sourceId := by
      unfold childrenOf
      rw [hL0rel, hout2, filter_child_foldl _ _ hsrcft]
    unfold propagate
    dsimp only
    rw [hcs]
    have hid : ∀ c ∈ childrenOf l1 sourceId,
        addRelationPair L0 ft (Relation.targetId c) "child" = L0 := by
      intro c hc
      cases hcp : l1.find? (fun m => m.id == Relation.targetId c) with
      | none =>
        refine addRelationPair_not_found (Or.inr ?_)
        apply eq_none_of_isSome_eq_false
        rw [hL0iso, hiso1, hcp]
        rfl
      | some _ =>
        have hcp' : (l1.find? (fun m => m.id == Relation.targetId c)).isSome = true := by
          rw [hcp]; rfl
        have h3 := foldl_addRelationPair_establish (childrenOf l1 sourceId) l1 hftl1 hc hcp'
        rw [← hout2] at h3
        have hA3 : hasRelId L0 ft "child" (Relation.targetId c) = true := by
          rw [hasRelId_congr (hL0rel _)]
          exact h3.1
        have hB3 : hasRelId L0 (Relation.targetId c) "parent" ft = true := by
          rw [hasRelId_congr (hL0rel _)]
          exact h3.2
        exact addRelationPair_eq_self (t := "child") hA3
          (by rw [reciprocal_child_eq]; exact hB3)
    rw [foldl_AP_eq_self hid]
    exact hL0rel id

/-- Re-running an edit with the SAME generated id changes no relation
list: the guarded inserts refuse every duplicate `(type, targetId)` pair
the second time around.  (Helper; the generated id is drawn afresh per
call in the source, so this pins it only as an intermediate step.) -/
lemma saveQuickRelation_reapply_same_fresh
    (members out : List Member) (sourceId newTargetName freshId : String)
    (qt : QType) (useNewTarget : Bool) (targetId : Option String)
    (hok : saveQuickRelation members sourceId qt useNewTarget newTargetName targetId freshId
      = Except.ok out) :
    ∃ out2, saveQuickRelation out sourceId qt useNewTarget newTargetName targetId freshId
        = Except.ok out2 ∧
      ∀ id, relationsOfId out2 id = relationsOfId out id := by
  rcases saveQuickRelation_ok_cases hok with ⟨ft, hft, hne, hns, hout, hname⟩
  refine ⟨_, saveQuickRelation_ok_form out hname hft hne hns, ?_⟩
  have hftne : ¬(ft = sourceId) := by simpa using hns
  have hsrcft : ¬(sourceId = ft) := fun h => hftne h.symm
  cases hs0 : (resolvedList members useNewTarget newTargetName freshId).find?
      (fun m => m.id == sourceId) with
  | none =>
    have hl1 : addRelationPair (resolvedList members useNewTarget newTargetName freshId)
        sourceId ft qt.str = resolvedList members useNewTarget newTargetName freshId :=
      addRelationPair_not_found (Or.inl hs0)
    have hout' : out = resolvedList members useNewTarget newTargetName freshId := by
      rw [hout, hl1, propagate_of_source_absent _ _ hs0]
    cases hu : useNewTarget with
    | false =>
      rw [hu] at hout' hs0
      rw [resolvedList_existing] at hout' hs0
      intro id
      rw [resolvedList_existing, hout',
        addRelationPair_not_found (Or.inl hs0), propagate_of_source_absent _ _ hs0]
    | true =>
      have hfr : freshId = ft := resolvedTargetId_new hft hu
      rw [hu] at hout' hs0
      have hsout : out.find? (fun m => m.id == sourceId) = none := by
        rw [hout']; exact hs0
      have hsL0 : (out ++ [newMember freshId (jsTrim newTargetName)]).find?
          (fun m => m.id == sourceId) = none :=
        find?_none_append (by rw [show (newMember freshId (jsTrim newTargetName)).id
          = freshId from rfl, hfr]; exact hftne) hsout
      intro id
      rw [resolvedList_new, addRelationPair_not_found (Or.inl hsL0),
        propagate_of_source_absent _ _ hsL0]
      refine relationsOfId_append_of_present ?_ id
      rw [show (newMember freshId (jsTrim newTargetName)).id = freshId from rfl, hout',
        resolvedList_new]
      exact find?_isSome_append_self members (newMember freshId (jsTrim newTargetName))
  | some sm =>
    cases hf0 : (resolvedList members useNewTarget newTargetName freshId).find?
        (fun m => m.id == ft) with
    | none =>
      have hu : useNewTarget = false := by
        cases hu' : useNewTarget with
        | false => rfl
        | true =>
          exfalso
          have hfr : freshId = ft := resolvedTargetId_new hft hu'
          rw [hu', resolvedList_new] at hf0
          have hself := find?_isSome_append_self members
            (newMember freshId (jsTrim newTargetName))
          rw [show (newMember freshId (jsTrim newTargetName)).id = freshId from rfl] at hself
          rw [← hfr] at hf0
          rw [hf0] at hself
          cases hself
      rw [hu] at hout hf0
      rw [resolvedList_existing] at hout hf0
      have hl1 : addRelationPair members sourceId ft qt.str = members :=
        addRelationPair_not_found (Or.inr hf0)
      have hout' : out = members := by
        rw [hout, hl1, propagate_of_ft_absent _ _ hf0]
      intro id
      rw [hu, resolvedList_existing, hout',
        addRelationPair_not_found (Or.inr hf0), propagate_of_ft_absent _ _ hf0]
    | some fm =>
      have hs0' : ((resolvedList members useNewTarget newTargetName freshId).find?
          (fun m => m.id == sourceId)).isSome = true := by rw [hs0]; rfl
      have hf0' : ((resolvedList members useNewTarget newTargetName freshId).find?
          (fun m => m.id == ft)).isSome = true := by rw [hf0]; rfl
      have hpair := hasRelId_addRelationPair_self (t := qt.str) hs0' hf0'
      have hoA : hasRelId out sourceId qt.str ft = true := by
        rw [hout]
        exact hasRelId_propagate_mono _ _ _ hpair.1
      have hoB : hasRelId out ft (reciprocal qt.str) sourceId = true := by
        rw [hout]
        exact hasRelId_propagate_mono _ _ _ hpair.2
      have hiso1 : ∀ x, (out.find? (fun m => m.id == x)).isSome
          = ((addRelationPair (resolvedList members useNewTarget newTargetName freshId)
              sourceId ft qt.str).find? (fun m => m.id == x)).isSome := by
        intro x
        rw [hout, find?_isSome_propagate]
      have hiso0 : ∀ x, (out.find? (fun m => m.id == x)).isSome
          = ((resolvedList members useNewTarget newTargetName freshId).find?
              (fun m => m.id == x)).isSome := by
        intro x
        rw [hiso1, find?_isSome_addRelationPair]
      have hftout : (out.find? (fun m => m.id == ft)).isSome = true := by
        rw [hiso0, hf0]; rfl
      have hL0rel : ∀ x, relationsOfId
          (resolvedList out useNewTarget newTargetName freshId) x = relationsOfId out x := by
        intro x
        cases hu : useNewTarget with
        | false => rw [resolvedList_existing]
        | true =>
          rw [resolvedList_new]
          refine relationsOfId_append_of_present ?_ x
          rw [show (newMember freshId (jsTrim newTargetName)).id = freshId from rfl,
            resolvedTargetId_new hft hu]
          exact hftout
      have hL0iso : ∀ x, ((resolvedList out useNewTarget newTargetName freshId).find?
          (fun m => m.id == x)).isSome = (out.find? (fun m => m.id == x)).isSome := by
        intro x
        cases hu : useNewTarget with
        | false => rw [resolvedList_existing]
        | true =>
          rw [resolvedList_new]
          refine find?_isSome_append_of_present ?_ x
          rw [show (newMember freshId (jsTrim newTargetName)).id = freshId from rfl,
            resolvedTargetId_new hft hu]
          exact hftout
      have hA' : hasRelId (resolvedList out useNewTarget newTargetName freshId)
          sourceId qt.str ft = true := by
        rw [hasRelId_congr (hL0rel sourceId)]
        exact hoA
      have hB' : hasRelId (resolvedList out useNewTarget newTargetName freshId)
          ft (reciprocal qt.str) sourceId = true := by
        rw [hasRelId_congr (hL0rel ft)]
        exact hoB
      rw [addRelationPair_eq_self hA' hB']
      have hftl1 : ((addRelationPair (resolvedList members useNewTarget newTargetName freshId)
          sourceId ft qt.str).find? (fun m => m.id == ft)).isSome = true := by
        rw [find?_isSome_addRelationPair]
        exact hf0'
      exact propagate_idem_on out _ _ sourceId ft qt hout hL0rel hL0iso hiso1 hftl1 hsrcft

/-- In existing-target mode the generated id is never consulted: it
only occurs in the two discarded new-target branches. -/
lemma saveQuickRelation_existing_fresh_irrelevant
    (members : List Member) (sourceId newTargetName freshId freshId' : String)
    (qt : QType) (targetId : Option String) :
    saveQuickRelation members sourceId qt false newTargetName targetId freshId
      = saveQuickRelation members sourceId qt false newTargetName targetId freshId' := rfl

/-- A single bootstrap member, used to refute C6 as stated. -/
def onlyMe : List Member :=
  [{ id := "s", name := "Me", dob := none, email := none, photo := none, relations := [] }]

/-- Counterexample to claim C6 as stated.  A relation-edit request in
new-member mode (`{sourceId, type, target: {newName}}`) generates a
fresh id on each application, so re-submitting the identical request
`add child "Kid" to s` creates a second member: after one application
the source holds one child relation, after two it holds two, and the
relation sets differ. -/
theorem repeat_new_member_request_not_idempotent :
    relationsOfId (commitQuickRelation onlyMe "s" QType.child true "Kid" none "k1") "s"
      = [⟨"child", "k1"⟩] ∧
    relationsOfId
      (commitQuickRelation
        (commitQuickRelation onlyMe "s" QType.child true "Kid" none "k1")
        "s" QType.child true "Kid" none "k2") "s"
      = [⟨"child", "k1"⟩, ⟨"child", "k2"⟩] := by
  refine ⟨by decide, by decide⟩

/-- Claim C6, amended to existing-target requests: applying the same
relation-edit request twice yields, for every id, the same relation
list as applying it once - the guarded inserts refuse every duplicate
`(type, targetId)` pair - even though the (unused) generated id of the
second call differs.  New-member requests are excluded: each
application draws a fresh id and creates a fresh member. -/
theorem saveQuickRelation_idempotent_existing
    (members out : List Member) (sourceId newTargetName freshId freshId' : String)
    (qt : QType) (targetId : Option String)
    (hok : saveQuickRelation members sourceId qt false newTargetName targetId freshId
      = Except.ok out) :
    ∃ out2, saveQuickRelation out sourceId qt false newTargetName targetId freshId'
        = Except.ok out2 ∧
      ∀ id, relationsOfId out2 id = relationsOfId out id := by
  rw [saveQuickRelation_existing_fresh_irrelevant out sourceId newTargetName freshId' freshId]
  exact saveQuickRelation_reapply_same_fresh members out sourceId newTargetName freshId
    qt false targetId hok

/-- Two isolated members, used to instantiate the amended C6. -/
def plainPair : List Member :=
  [{ id := "x1", name := "X1", dob := none, email := none, photo := none, relations := [] },
   { id := "x2", name := "X2", dob := none, email := none, photo := none, relations := [] }]

/-- Witness for the amended C6: marrying `x1` to the existing `x2` and
then re-submitting the identical request (with a different, unused
generated id) leaves every member's relation list unchanged. -/
theorem saveQuickRelation_idempotent_existing_witness :
    ∃ out2, saveQuickRelation
        (commitQuickRelation plainPair "x1" QType.spouse false "" (some "x2") "z")
        "x1" QType.spouse false "" (some "x2") "z2" = Except.ok out2 ∧
      ∀ id, relationsOfId out2 id =
        relationsOfId
          (commitQuickRelation plainPair "x1" QType.spouse false "" (some "x2") "z") id :=
  saveQuickRelation_idempotent_existing plainPair
    (commitQuickRelation plainPair "x1" QType.spouse false "" (some "x2") "z")
    "x1" "" "z" "z2" QType.spouse (some "x2") (by rfl)

end FamilyTree
